import Mathlib

/-!
Verification of the HackerNews scraping pipeline (w04m1/wc-test).

This file gives a shallow embedding of the repository's data model and
operations, and proves or refutes the specification's claims about them.

Conventions of the embedding:
* machine time instants (Python `datetime`) are abstract integers;
* Python strings are Lean `String`s, with character-list helpers mirroring
  the stdlib operations used by the code (`str.strip`, `str.lower`,
  substring tests, `int(...)` parsing);
* fallible Python code (exceptions) becomes `Option`-valued Lean code;
* stdlib primitives used by the code (`urllib.parse.urlparse`,
  `datetime.isoformat`/`fromisoformat`, the `csv` module's cell layer)
  are modelled by executable Lean functions, documented at their
  definitions; everything else is translated directly from the source.
-/

/-- ASCII whitespace stripped by Python `str.strip()` (and ignored by
`int(...)`), restricted to the ASCII range that the data here uses. -/
def isPySpace (c : Char) : Bool :=
  c = ' ' || c = '\t' || c = '\n' || c = '\r' || c = '\x0b' || c = '\x0c'

/-- Drop characters satisfying `p` from the front of a list. -/
def lstripBy (p : Char → Bool) (l : List Char) : List Char :=
  l.dropWhile p

/-- Drop characters satisfying `p` from the back of a list. -/
def rstripBy (p : Char → Bool) (l : List Char) : List Char :=
  (l.reverse.dropWhile p).reverse

/-- Drop characters satisfying `p` from both ends (Python `str.strip(chars)`). -/
def stripBy (p : Char → Bool) (l : List Char) : List Char :=
  rstripBy p (lstripBy p l)

/-- Python `str.strip()` on character lists. -/
def pyStripL (l : List Char) : List Char := stripBy isPySpace l

/-- Python `str.strip()`. -/
def pyStrip (s : String) : String := String.mk (pyStripL s.data)

/-- Python `str.lower()` (ASCII case folding, which covers the data used here). -/
def pyLower (s : String) : String := String.mk (s.data.map Char.toLower)

/-- Python `needle in hay` substring test on character lists. -/
def containsSub (hay needle : List Char) : Bool :=
  match hay with
  | [] => needle.isEmpty
  | _ :: t => needle.isPrefixOf hay || containsSub t needle

/-- Python `needle in hay` substring test on strings. -/
def strContains (hay needle : String) : Bool := containsSub hay.data needle.data

/-- Python `s.startswith(pre)` on strings. -/
def strStartsWith (s pre : String) : Bool := pre.data.isPrefixOf s.data

/-- Python `str.split()` (split on runs of whitespace, discarding empties). -/
def pySplitWsL : List Char → List (List Char)
  | [] => []
  | c :: t =>
    if isPySpace c then pySplitWsL t
    else
      match pySplitWsL t with
      | [] => [[c]]
      | s :: ss =>
        match t with
        | [] => [[c]]
        | c' :: _ => if isPySpace c' then [c] :: s :: ss else (c :: s) :: ss

/-- First whitespace-separated token of a string, if any (Python `s.split()[0]`). -/
def firstToken (s : String) : Option String :=
  ((pySplitWsL s.data).head?).map String.mk

/-- Decimal digit accumulator for `int(...)`: fails on any non-digit. -/
def decodeDigitsAux : List Char → Nat → Option Nat
  | [], acc => some acc
  | c :: t, acc =>
    if c.isDigit then decodeDigitsAux t (acc * 10 + (c.toNat - '0'.toNat)) else none

/-- Decode a non-empty all-digit list to a natural number. -/
def decodeDigits : List Char → Option Nat
  | [] => none
  | c :: t => decodeDigitsAux (c :: t) 0

/-- Python `int(string)`: surrounding whitespace allowed, optional sign,
then one or more decimal digits; anything else raises (here: `none`). -/
def pyIntL (l : List Char) : Option Int :=
  match stripBy isPySpace l with
  | [] => none
  | c :: rest =>
    if c = '-' then (decodeDigits rest).map (fun n => -(n : Int))
    else if c = '+' then (decodeDigits rest).map (fun n => (n : Int))
    else (decodeDigits (c :: rest)).map (fun n => (n : Int))

/-- Python `int(string)` on strings. -/
def pyInt (s : String) : Option Int := pyIntL s.data

/-- The ASCII digit character for `n < 10`. -/
def digitChar (n : Nat) : Char := Char.ofNat ('0'.toNat + n)

/-- Fuelled decimal printer for naturals (most significant digit first). -/
def natDigitsAux : Nat → Nat → List Char
  | 0, _ => []
  | fuel + 1, n =>
    if n < 10 then [digitChar n]
    else natDigitsAux fuel (n / 10) ++ [digitChar (n % 10)]

/-- Decimal digits of a natural number, as written by Python `str(...)`. -/
def natDigits (n : Nat) : List Char := natDigitsAux (n + 1) n

/-- Python `str(...)` on an `int`. -/
def intToStr (n : Int) : String :=
  if n < 0 then String.mk ('-' :: natDigits n.natAbs) else String.mk (natDigits n.natAbs)

/-! ### Model of `urllib.parse.urlparse` and the repository-URL resolver -/

/-- The components of a parsed URL that `extract_repo_info` inspects. -/
structure ParsedUrl where
  netloc : List Char
  path : List Char
deriving DecidableEq, Repr

/-- Character that ends the network-location component. -/
def endsNetloc (c : Char) : Bool := c = '/' || c = '?' || c = '#'

/-- Character that ends the path component. -/
def endsPath (c : Char) : Bool := c = '?' || c = '#'

/-- Scan for the first `"://"` scheme separator and return the text after it. -/
def afterSchemeSep : List Char → Option (List Char)
  | [] => none
  | c :: t =>
    if c = ':' ∧ t.take 2 = ['/', '/'] then some (t.drop 2)
    else afterSchemeSep t

/-- Model of `urllib.parse.urlparse`, restricted to the `netloc` and `path`
components that the code reads: with a `"://"` separator the netloc runs to
the first `/`, `?` or `#` and the path to the first `?` or `#`; without one
the whole text is path and the netloc is empty. -/
def urlparseL (l : List Char) : ParsedUrl :=
  match afterSchemeSep l with
  | none => { netloc := [], path := l.takeWhile (fun c => !endsPath c) }
  | some rest =>
    { netloc := rest.takeWhile (fun c => !endsNetloc c)
      path := (rest.dropWhile (fun c => !endsNetloc c)).takeWhile (fun c => !endsPath c) }

/-- Python `"text".split("/")` on character lists. -/
def splitSlashL : List Char → List (List Char)
  | [] => [[]]
  | c :: t =>
    if c = '/' then [] :: splitSlashL t
    else
      match splitSlashL t with
      | [] => [[c]]
      | s :: ss => (c :: s) :: ss

/-- Body of `GitHubStarTracker.extract_repo_info` (src/github_stars.py
84-104) on the URL's characters: domain check, split of the path into
non-empty segments, at-least-two-segments check, `.git` suffix strip. -/
def extractRepoCore (l : List Char) : Option (String × String) :=
  if l.isEmpty then none
  else
    let parsed := urlparseL l
    if parsed.netloc = "github.com".data ∨ parsed.netloc = "www.github.com".data then
      match (splitSlashL parsed.path).filter (fun p => !p.isEmpty) with
      | owner :: repo :: _ =>
        let repo' := if List.isSuffixOf ['.', 'g', 'i', 't'] repo
          then repo.take (repo.length - 4) else repo
        some (String.mk owner, String.mk repo')
      | _ => none
    else none

/-- `GitHubStarTracker.extract_repo_info` (src/github_stars.py 64-108):
owner and repository name from a GitHub URL, `none` for anything else
(including falsy input, the `if not url` guard); total, so the `except`
fallback of the source can never fire. -/
def extract_repo_info (url : Option String) : Option (String × String) :=
  match url with
  | none => none
  | some u => extractRepoCore u.data

/-! ### Data model (src/models.py, src/github_stars.py) -/

/-- `GitHubStar` (src/github_stars.py): one star event on a repository. -/
structure GitHubStar where
  repo_owner : String
  repo_name : String
  starred_at : Int
  user_login : String
deriving DecidableEq, Repr

/-- `GitHubStar.repo_full_name`. -/
def GitHubStar.repo_full_name (s : GitHubStar) : String :=
  s.repo_owner ++ "/" ++ s.repo_name

/-- `HNPost` (src/models.py): one aggregator post.  Optional datetimes are
optional integers; the five `github_*` fields default to absent. -/
structure HNPost where
  rank : Int
  post_id : String
  title : String
  url : Option String := none
  domain : Option String := none
  points : Int
  author : String
  comments_count : Int
  age_text : String
  posted_at : Option Int := none
  page_number : Int
  scraped_at : Int
  is_show_hn : Bool := false
  is_ask_hn : Bool := false
  is_job : Bool := false
  is_github_link : Bool := false
  is_twitter_link : Bool := false
  is_yc_company : Bool := false
  github_repo_full_name : Option String := none
  github_total_stars : Option Int := none
  github_stars_before_hn : Option Int := none
  github_stars_after_hn : Option Int := none
  github_stars_fetched_at : Option Int := none
deriving DecidableEq, Repr

/-- Python truthiness of an optional string (`None` and `""` are falsy). -/
def truthyOptStr (o : Option String) : Bool :=
  match o with
  | some s => !s.isEmpty
  | none => false

/-! ### Star History Fetcher (src/github_stars.py) -/

/-- One raw element of the stargazers JSON array, reduced to the two pieces
the conversion reads: `none` stands for a missing key or (for the
timestamp) text `datetime.fromisoformat` rejects. -/
structure RawStarItem where
  starred_at : Option Int := none
  user_login : Option String := none
deriving DecidableEq, Repr

/-- Per-item conversion inside `fetch_stars_page` (src/github_stars.py
162-175): a malformed item yields `none` and is skipped. -/
def convertStarItem (owner repo : String) (item : RawStarItem) : Option GitHubStar :=
  match item.starred_at, item.user_login with
  | some t, some u =>
    some { repo_owner := owner, repo_name := repo, starred_at := t, user_login := u }
  | _, _ => none

/-- Outcome of one stargazers-page request: a JSON array, or a transport
error (`requests.exceptions.RequestException`).  A 422/404 response is the
same as a page beyond the end of the list (empty array, no more pages). -/
inductive PageResp where
  | ok (items : List RawStarItem)
  | err
deriving DecidableEq, Repr

/-- `GitHubStarTracker.STARS_PER_PAGE`. -/
def STARS_PER_PAGE : Nat := 100

/-- `GitHubStarTracker.fetch_stars_page` (src/github_stars.py 110-184) over
a fixed sequence of page responses (`page` is 1-based); `none` is a raised
transport error.  The rate-limit retry re-requests the same page and so is
invisible at this level. -/
def fetch_stars_page (owner repo : String) (pages : List PageResp) (page : Nat) :
    Option (List GitHubStar × Bool) :=
  match pages.getD (page - 1) (PageResp.ok []) with
  | PageResp.err => none
  | PageResp.ok data =>
    some (data.filterMap (convertStarItem owner repo), data.length == STARS_PER_PAGE)

/-- Truthiness-guarded page cap test `max_pages and page > max_pages`
(src/github_stars.py 206). -/
def pageCapHit (maxPages : Option Int) (page : Int) : Bool :=
  match maxPages with
  | some m => decide (m ≠ 0) && decide (page > m)
  | none => false

/-- The `while True` loop of `GitHubStarTracker.fetch_all_stars`
(src/github_stars.py 205-231), walking the remaining page responses. -/
def fetch_all_stars_loop (owner repo : String) (maxPages : Option Int) :
    List PageResp → List GitHubStar → Int → List GitHubStar
  | remaining, all_stars, page =>
    if pageCapHit maxPages page then all_stars
    else
      match remaining with
      | [] => all_stars
      | PageResp.err :: _ => all_stars
      | PageResp.ok data :: rest =>
        let stars := data.filterMap (convertStarItem owner repo)
        if stars.isEmpty then all_stars
        else if data.length ≠ STARS_PER_PAGE then all_stars ++ stars
        else fetch_all_stars_loop owner repo maxPages rest (all_stars ++ stars) (page + 1)

/-- `GitHubStarTracker.fetch_all_stars` (src/github_stars.py 186-234). -/
def fetch_all_stars (owner repo : String) (pages : List PageResp)
    (maxPages : Option Int) : List GitHubStar :=
  fetch_all_stars_loop owner repo maxPages pages [] 1

/-! ### Enrichment Pipeline (src/hackernews.py, `_enrich_with_github_stars`) -/

/-- The values cached in `processed_repos` (src/hackernews.py 197-203). -/
structure StarData where
  repo_full_name : String
  total_stars : Int
  stars_before_hn : Int
  stars_after_hn : Int
  fetched_at : Int
deriving DecidableEq, Repr

/-- The before/after/total computation of src/hackernews.py 172-190:
strictly earlier stars count as before, later-or-equal as after; with no
resolved post time both counts stay 0. -/
def computeStarData (full : String) (stars : List GitHubStar)
    (posted_at : Option Int) (now : Int) : StarData :=
  { repo_full_name := full
    total_stars := (stars.length : Int)
    stars_before_hn :=
      match posted_at with
      | some t => ((stars.filter (fun s => s.starred_at < t)).length : Int)
      | none => 0
    stars_after_hn :=
      match posted_at with
      | some t => ((stars.filter (fun s => s.starred_at ≥ t)).length : Int)
      | none => 0
    fetched_at := now }

/-- Writing enrichment values onto a post (src/hackernews.py 155-159 and
186-190 assign the same five fields). -/
def applyStarData (post : HNPost) (sd : StarData) : HNPost :=
  { post with
    github_repo_full_name := some sd.repo_full_name
    github_total_stars := some sd.total_stars
    github_stars_before_hn := some sd.stars_before_hn
    github_stars_after_hn := some sd.stars_after_hn
    github_stars_fetched_at := some sd.fetched_at }

/-- First-encounter enrichment of one post (src/hackernews.py 172-190). -/
def enrichPostWithStars (post : HNPost) (full : String) (stars : List GitHubStar)
    (now : Int) : HNPost :=
  applyStarData post (computeStarData full stars post.posted_at now)

/-- The filter `p.is_github_link and p.url` (src/hackernews.py 125). -/
def isGithubPost (p : HNPost) : Bool :=
  p.is_github_link && truthyOptStr p.url

/-- Mutable state of one enrichment run: the `processed_repos` memo, the
record of `fetch_all_stars` invocations (by repository full name), and a
cursor into the stream of `datetime.now()` readings. -/
structure EnrichState where
  memo : List (String × StarData)
  fetchLog : List String
  clock : Nat
deriving Repr

/-- One iteration of the enrichment loop body (src/hackernews.py 137-212)
for a post already in `github_posts`; `fetch` is the Star History Fetcher
and `times` the stream of `datetime.now()` readings. -/
def enrichStep (fetch : String → String → List GitHubStar) (times : Nat → Int)
    (st : EnrichState) (post : HNPost) : EnrichState × HNPost :=
  if isGithubPost post then
    match extract_repo_info post.url with
    | none => (st, post)
    | some (owner, repo) =>
      let full := owner ++ "/" ++ repo
      match st.memo.lookup full with
      | some sd => (st, applyStarData post sd)
      | none =>
        let stars := fetch owner repo
        if stars.isEmpty then
          ({ st with fetchLog := st.fetchLog ++ [full] }, post)
        else
          let sd := computeStarData full stars post.posted_at (times st.clock)
          ({ memo := (full, sd) :: st.memo
             fetchLog := st.fetchLog ++ [full]
             clock := st.clock + 1 },
           applyStarData post sd)
  else (st, post)

/-- The enrichment loop over all posts.  `budget = some k` models a
`KeyboardInterrupt` arriving at the top of the `github_posts` loop after
`k` of its iterations: the remaining posts are returned unmodified
(src/hackernews.py 205-209); `budget = none` is an uninterrupted run.
Posts outside `github_posts` are never iterated over. -/
def enrichLoop (fetch : String → String → List GitHubStar) (times : Nat → Int) :
    Option Nat → EnrichState → List HNPost → EnrichState × List HNPost
  | _, st, [] => (st, [])
  | budget, st, post :: rest =>
    if isGithubPost post then
      match budget with
      | some 0 => (st, post :: rest)
      | some (b + 1) =>
        ((enrichLoop fetch times (some b) (enrichStep fetch times st post).1 rest).1,
         (enrichStep fetch times st post).2 ::
           (enrichLoop fetch times (some b) (enrichStep fetch times st post).1 rest).2)
      | none =>
        ((enrichLoop fetch times none (enrichStep fetch times st post).1 rest).1,
         (enrichStep fetch times st post).2 ::
           (enrichLoop fetch times none (enrichStep fetch times st post).1 rest).2)
    else
      ((enrichLoop fetch times budget st rest).1,
       post :: (enrichLoop fetch times budget st rest).2)

/-- `HackerNews._enrich_with_github_stars` (src/hackernews.py 106-215),
returning the final state alongside the (mutated) posts. -/
def enrichWithGithubStars (fetch : String → String → List GitHubStar)
    (times : Nat → Int) (budget : Option Nat) (posts : List HNPost) :
    EnrichState × List HNPost :=
  enrichLoop fetch times budget { memo := [], fetchLog := [], clock := 0 } posts

/-- The all-or-none shape of the five enrichment fields. -/
def enrichmentConsistent (p : HNPost) : Prop :=
  (p.github_repo_full_name ≠ none ∧ p.github_total_stars ≠ none ∧
    p.github_stars_before_hn ≠ none ∧ p.github_stars_after_hn ≠ none ∧
    p.github_stars_fetched_at ≠ none) ∨
  (p.github_repo_full_name = none ∧ p.github_total_stars = none ∧
    p.github_stars_before_hn = none ∧ p.github_stars_after_hn = none ∧
    p.github_stars_fetched_at = none)

instance (p : HNPost) : Decidable (enrichmentConsistent p) := by
  unfold enrichmentConsistent
  infer_instance

/-- Boolean check that the five enrichment fields are all absent. -/
def noEnrichment (p : HNPost) : Bool :=
  p.github_repo_full_name == none && p.github_total_stars == none &&
  p.github_stars_before_hn == none && p.github_stars_after_hn == none &&
  p.github_stars_fetched_at == none

/-- A post that enters the enrichment loop (`is_github_link` set, truthy
URL) and whose URL resolves to the repository pair `(o, r)`. -/
def resolvesVia (o r : String) (p : HNPost) : Prop :=
  isGithubPost p = true ∧ extract_repo_info p.url = some (o, r)

instance (o r : String) (p : HNPost) : Decidable (resolvesVia o r p) := by
  unfold resolvesVia
  infer_instance

/-- The five enrichment fields of a post, as one tuple. -/
def enrichFieldsOf (p : HNPost) :
    Option String × Option Int × Option Int × Option Int × Option Int :=
  (p.github_repo_full_name, p.github_total_stars, p.github_stars_before_hn,
   p.github_stars_after_hn, p.github_stars_fetched_at)

/-! ### Search-API Fetcher (src/api_scraper.py; duplicated verbatim as
`HNAPIClient` in src/hackernews.py 231-403) -/

/-- One raw search-API hit, reduced to the keys the conversion reads
(`none` = key absent or JSON null). -/
structure Hit where
  objectID : Option String := none
  title : Option String := none
  url : Option String := none
  points : Option Int := none
  author : Option String := none
  num_comments : Option Int := none
  created_at_i : Option Int := none
  tags : List String := []
deriving DecidableEq, Repr

/-- The age-text computation of `_convert_api_hit_to_post`
(src/api_scraper.py 142-152): `timedelta` days are floor quotients and
seconds the nonnegative remainder. -/
def ageTextOf (now t : Int) : String :=
  let days := (now - t).fdiv 86400
  let secs := (now - t).fmod 86400
  if days > 0 then intToStr days ++ " days ago"
  else
    let hours := secs.fdiv 3600
    if hours > 0 then intToStr hours ++ " hours ago"
    else intToStr (secs.fdiv 60) ++ " minutes ago"

/-- `HNAPIClient._convert_api_hit_to_post` (src/api_scraper.py 100-186). -/
def convert_api_hit_to_post (hit : Hit) (page : Int) (now : Int) : Option HNPost :=
  let post_id := hit.objectID.getD ""
  let title := hit.title.getD ""
  if title.isEmpty then none
  else
    let url := hit.url
    let domain : Option String :=
      if truthyOptStr url then some (String.mk (urlparseL (url.getD "").data).netloc)
      else none
    let postedPair : Option Int × String :=
      match hit.created_at_i with
      | some t => if t = 0 then (none, "") else (some t, ageTextOf now t)
      | none => (none, "")
    let title_lower := pyLower title
    let url_lower := if truthyOptStr url then pyLower (url.getD "") else ""
    some { rank := 0
           post_id := post_id
           title := title
           url := url
           domain := domain
           points := hit.points.getD 0
           author := hit.author.getD ""
           comments_count := hit.num_comments.getD 0
           age_text := postedPair.2
           posted_at := postedPair.1
           page_number := page
           scraped_at := now
           is_show_hn := strContains title_lower "show hn"
           is_ask_hn := strContains title_lower "ask hn"
           is_job := hit.tags.contains "job"
           is_github_link := strContains url_lower "github.com"
           is_twitter_link := strContains url_lower "twitter.com" ||
             strContains url_lower "x.com"
           is_yc_company := strContains title_lower "yc" ||
             strContains (pyLower title) "(yc" }

/-- The per-iteration `hits_per_page` computation (src/api_scraper.py
54-60): `none` means the `max_posts` break fired; the `if max_posts:`
truthiness test makes a bound of 0 behave like no bound. -/
def hitsBudget (maxPosts : Option Int) (accLen : Nat) : Option Int :=
  match maxPosts with
  | some m =>
    if m ≠ 0 then
      let remaining := m - (accLen : Int)
      if remaining ≤ 0 then none else some (min 1000 remaining)
    else some 1000
  | none => some 1000

/-- The `while True` loop of `fetch_posts_in_timeframe`
(src/api_scraper.py 52-98) over a fixed page sequence: requesting page `p`
with `hitsPerPage = h` returns the first `h` hits of the `p`-th page (the
service never sends more than asked). -/
def fetchPostsLoop (now : Int) (maxPosts : Option Int) :
    List (List Hit) → List HNPost → Int → List HNPost
  | [], acc, _ => acc
  | hits :: rest, acc, page =>
    match hitsBudget maxPosts acc.length with
    | none => acc
    | some h =>
      let served := hits.take h.toNat
      if served.isEmpty then acc
      else
        fetchPostsLoop now maxPosts rest
          (acc ++ served.filterMap (fun hit => convert_api_hit_to_post hit page now))
          (page + 1)

/-- `HNAPIClient.fetch_posts_in_timeframe` (src/api_scraper.py 32-98). -/
def fetch_posts_in_timeframe (now : Int) (pages : List (List Hit))
    (maxPosts : Option Int) : List HNPost :=
  fetchPostsLoop now maxPosts pages [] 0

/-- Spec-side reading for the Search-API Fetcher result: the concatenation,
in page order, of the converted hits of all pages before the first empty
page. -/
def specConcatConverted (now : Int) : Int → List (List Hit) → List HNPost
  | _, [] => []
  | page, hits :: rest =>
    if hits.isEmpty then []
    else
      hits.filterMap (fun hit => convert_api_hit_to_post hit page now) ++
        specConcatConverted now (page + 1) rest

/-! ### Tabular Exporter and CSV loader (src/hackernews.py `save_to_csv`,
src/hn_github_integration.py `load_posts_from_csv`).  The `csv` module's
quoting layer is an exact inverse at the cell level, so a file is a list
of header-keyed cell rows. -/

/-- Model of `datetime.isoformat` under the identification of instants
with integers: an injective textual encoding of the instant. -/
def isoEncode (t : Int) : String := intToStr t

/-- Model of `datetime.fromisoformat` on the same encoding (`none` = the
`ValueError` it raises on text it cannot parse). -/
def isoDecode (s : String) : Option Int := pyInt s

/-- Python `str(...)` on a bool, as written by `csv` for `True`/`False`. -/
def boolToStr (b : Bool) : String := if b then "True" else "False"

/-- Cell for an optional string (`csv` writes `None` as the empty cell). -/
def optStrCell (o : Option String) : String := o.getD ""

/-- Cell for an optional integer. -/
def optIntCell (o : Option Int) : String :=
  match o with
  | some n => intToStr n
  | none => ""

/-- Cell for an optional datetime (`save_to_csv` pre-serializes datetimes
with `isoformat` and leaves `None` to become the empty cell). -/
def optDtCell (o : Option Int) : String :=
  match o with
  | some t => isoEncode t
  | none => ""

/-- One CSV data row, keyed by the header written from the model's field
order. -/
structure CsvRow where
  rank : String
  post_id : String
  title : String
  url : String
  domain : String
  points : String
  author : String
  comments_count : String
  age_text : String
  posted_at : String
  page_number : String
  scraped_at : String
  is_show_hn : String
  is_ask_hn : String
  is_job : String
  is_github_link : String
  is_twitter_link : String
  is_yc_company : String
  github_repo_full_name : String
  github_total_stars : String
  github_stars_before_hn : String
  github_stars_after_hn : String
  github_stars_fetched_at : String
deriving DecidableEq, Repr

/-- The per-post row written by `save_to_csv` (src/hackernews.py 96-102). -/
def writeCsvRow (p : HNPost) : CsvRow :=
  { rank := intToStr p.rank
    post_id := p.post_id
    title := p.title
    url := optStrCell p.url
    domain := optStrCell p.domain
    points := intToStr p.points
    author := p.author
    comments_count := intToStr p.comments_count
    age_text := p.age_text
    posted_at := optDtCell p.posted_at
    page_number := intToStr p.page_number
    scraped_at := isoEncode p.scraped_at
    is_show_hn := boolToStr p.is_show_hn
    is_ask_hn := boolToStr p.is_ask_hn
    is_job := boolToStr p.is_job
    is_github_link := boolToStr p.is_github_link
    is_twitter_link := boolToStr p.is_twitter_link
    is_yc_company := boolToStr p.is_yc_company
    github_repo_full_name := optStrCell p.github_repo_full_name
    github_total_stars := optIntCell p.github_total_stars
    github_stars_before_hn := optIntCell p.github_stars_before_hn
    github_stars_after_hn := optIntCell p.github_stars_after_hn
    github_stars_fetched_at := optDtCell p.github_stars_fetched_at }

/-- `HackerNews.save_to_csv` (src/hackernews.py 78-104): an empty list is
a diagnostic no-op (no file), otherwise one data row per post. -/
def save_to_csv (posts : List HNPost) : Option (List CsvRow) :=
  if posts.isEmpty then none else some (posts.map writeCsvRow)

/-- The per-row conversion of `HNGitHubAnalyzer.load_posts_from_csv`
(src/hn_github_integration.py 50-77); `none` is an uncaught exception.
Note the five `github_*` columns are never read, so the loaded post keeps
their defaults. -/
def loadCsvRow (r : CsvRow) : Option HNPost := do
  let rank ← pyInt r.rank
  let points ← pyInt r.points
  let comments ← pyInt r.comments_count
  let page ← pyInt r.page_number
  let posted ←
    if r.posted_at.isEmpty then some (none : Option Int)
    else (isoDecode r.posted_at).map some
  let scraped ← isoDecode r.scraped_at
  some { rank := rank
         post_id := r.post_id
         title := r.title
         url := if r.url.isEmpty then none else some r.url
         domain := if r.domain.isEmpty then none else some r.domain
         points := points
         author := r.author
         comments_count := comments
         age_text := r.age_text
         posted_at := posted
         page_number := page
         scraped_at := scraped
         is_show_hn := pyLower r.is_show_hn == "true"
         is_ask_hn := pyLower r.is_ask_hn == "true"
         is_job := pyLower r.is_job == "true"
         is_github_link := pyLower r.is_github_link == "true"
         is_twitter_link := pyLower r.is_twitter_link == "true"
         is_yc_company := pyLower r.is_yc_company == "true" }

/-- `HNGitHubAnalyzer.load_posts_from_csv` (src/hn_github_integration.py
35-80): an exception on any row aborts the whole load. -/
def load_posts_from_csv : List CsvRow → Option (List HNPost)
  | [] => some []
  | r :: t => do
    let p ← loadCsvRow r
    let ps ← load_posts_from_csv t
    pure (p :: ps)

/-- A post with its five enrichment fields reset to absent — what the CSV
loader reconstructs at best, since it never reads those columns. -/
def stripEnrichment (p : HNPost) : HNPost :=
  { p with
    github_repo_full_name := none
    github_total_stars := none
    github_stars_before_hn := none
    github_stars_after_hn := none
    github_stars_fetched_at := none }

/-! ### Front-Page Fetcher (src/scraper.py `HackerNewsScraper` and the
reimplementation `HNWebScraper` in src/hackernews.py).  A page is a list
of structural post rows; each row carries exactly the markup pieces the
two parsers query via BeautifulSoup. -/

/-- Placement of the inline site-name marker inside the title container:
absent, a `span.sitestr` wrapped in a `span.sitebit` (the real markup), or
a bare `span.sitestr` with no `sitebit` wrapper. -/
inductive SiteMark where
  | absent
  | inBit (s : String)
  | bare (s : String)
deriving DecidableEq, Repr

/-- The `span.titleline` contents: first link's text and `href`, plus the
site marker. -/
structure TitleLine where
  linkText : Option String := none
  href : Option String := none
  mark : SiteMark := SiteMark.absent
deriving DecidableEq, Repr

/-- The `td.subtext` contents: score text, user link text, age span (and
its inner link's text), and the texts of all links inside the cell. -/
structure SubtextCell where
  scoreText : Option String := none
  authorText : Option String := none
  ageLink : Option (Option String) := none
  linkTexts : List String := []
deriving DecidableEq, Repr

/-- The `tr` following a post row: its optional `td.subtext` and the texts
of all links anywhere in the row. -/
structure MetaRow where
  subtext : Option SubtextCell := none
  allLinkTexts : List String := []
deriving DecidableEq, Repr

/-- One `tr.athing` post row together with its following sibling row. -/
structure PostRow where
  idAttr : Option String := none
  rankText : Option String := none
  titleline : Option TitleLine := none
  nextRow : Option MetaRow := none
deriving DecidableEq, Repr

/-- `parse_age_to_datetime` (identical in src/scraper.py 69-102 and
src/hackernews.py 462-495). -/
def parse_age_to_datetime (now : Int) (age_text : String) : Option Int :=
  match pySplitWsL (pyLower age_text).data with
  | value :: unit :: _ =>
    match pyIntL value with
    | none => none
    | some v =>
      if containsSub unit "minute".data then some (now - v * 60)
      else if containsSub unit "hour".data then some (now - v * 3600)
      else if containsSub unit "day".data then some (now - v * 86400)
      else if containsSub unit "month".data then some (now - v * 30 * 86400)
      else if containsSub unit "year".data then some (now - v * 365 * 86400)
      else none
  | _ => none

/-- The comment-count scan (identical in src/scraper.py 204-217 and
src/hackernews.py 574-586): first link whose text contains "comment". -/
def commentCountOf (links : List String) : Int :=
  match links.find? (fun l => strContains (pyLower (pyStrip l)) "comment") with
  | none => 0
  | some l =>
    let lt := pyStrip l
    if pyLower lt = "discuss" then 0
    else
      match (firstToken lt).bind pyInt with
      | some n => n
      | none => 0

/-- The author/age extraction shared verbatim by both parsers
(src/scraper.py 189-201, src/hackernews.py 557-571): author text, age text
and the derived timestamp. -/
def subtextAuthorAge (now : Int) (st : SubtextCell) : String × String × Option Int :=
  let author :=
    match st.authorText with
    | some a => pyStrip a
    | none => ""
  match st.ageLink with
  | some (some t) => (author, pyStrip t, parse_age_to_datetime now (pyStrip t))
  | _ => (author, "", none)

/-- `HackerNewsScraper.parse_page` body for one row (src/scraper.py
121-257); `none` means the row was skipped (explicitly or via the
per-row `except`). -/
def parseRowScraper (now page_number : Int) (row : PostRow) : Option HNPost :=
  let post_id := row.idAttr.getD ""
  let rankOpt : Option Int :=
    match row.rankText with
    | none => some 0
    | some txt => pyIntL (stripBy (fun c => c = '.') txt.data)
  match rankOpt with
  | none => none
  | some rank =>
    match row.titleline with
    | none => none
    | some tl =>
      match tl.linkText with
      | none => none
      | some rawTitle =>
        let title := pyStrip rawTitle
        let url0 := tl.href.getD ""
        let url :=
          if !url0.isEmpty && !(strStartsWith url0 "http")
          then "https://news.ycombinator.com/" ++ url0 else url0
        let domain : Option String :=
          match tl.mark with
          | SiteMark.inBit s => some (pyStrip s)
          | _ => none
        match row.nextRow with
        | none => none
        | some mr =>
          match mr.subtext with
          | none =>
            some { rank := rank
                   post_id := post_id
                   title := title
                   url := if url.isEmpty then none else some url
                   domain := domain
                   points := 0
                   author := ""
                   comments_count := 0
                   age_text := ""
                   posted_at := none
                   page_number := page_number
                   scraped_at := now
                   is_job := true }
          | some st =>
            let ptsOpt : Option Int :=
              match st.scoreText with
              | none => some 0
              | some sc =>
                let pt := pyStrip sc
                if pt.isEmpty then some 0
                else (firstToken pt).bind pyInt
            match ptsOpt with
            | none => none
            | some points =>
              let aa := subtextAuthorAge now st
              let title_lower := pyLower title
              let url_lower := pyLower url
              some { rank := rank
                     post_id := post_id
                     title := title
                     url := if url.isEmpty then none else some url
                     domain := domain
                     points := points
                     author := aa.1
                     comments_count := commentCountOf st.linkTexts
                     age_text := aa.2.1
                     posted_at := aa.2.2
                     page_number := page_number
                     scraped_at := now
                     is_show_hn := strContains title_lower "show hn"
                     is_ask_hn := strContains title_lower "ask hn"
                     is_job := false
                     is_github_link := strContains url_lower "github.com"
                     is_twitter_link := strContains url_lower "twitter.com" ||
                       strContains url_lower "x.com"
                     is_yc_company := strContains title_lower "yc" ||
                       strContains (pyLower title) "(yc" }

/-- `HNWebScraper.parse_page` body for one row (src/hackernews.py
514-626); `none` means the row was skipped. -/
def parseRowWeb (now page_number : Int) (row : PostRow) : Option HNPost :=
  let rankOpt : Option Int :=
    match row.rankText with
    | none => some 0
    | some txt => pyIntL (rstripBy (fun c => c = '.') (pyStripL txt.data))
  match rankOpt with
  | none => none
  | some rank =>
    let post_id := row.idAttr.getD ""
    match row.titleline with
    | none => none
    | some tl =>
      match tl.linkText with
      | none => none
      | some rawTitle =>
        let title := pyStrip rawTitle
        let url := tl.href.getD ""
        let domain : Option String :=
          match tl.mark with
          | SiteMark.inBit s => some (pyStrip s)
          | SiteMark.bare s => some (pyStrip s)
          | SiteMark.absent => none
        match row.nextRow with
        | none => none
        | some mr =>
          match mr.subtext with
          | none => none
          | some st =>
            let points : Int :=
              match st.scoreText with
              | none => 0
              | some sc =>
                match (firstToken (pyStrip sc)).bind pyInt with
                | some n => n
                | none => 0
            let aa := subtextAuthorAge now st
            let title_lower := pyLower title
            let url_lower := pyLower url
            some { rank := rank
                   post_id := post_id
                   title := title
                   url := if url.isEmpty then none else some url
                   domain := domain
                   points := points
                   author := aa.1
                   comments_count := commentCountOf mr.allLinkTexts
                   age_text := aa.2.1
                   posted_at := aa.2.2
                   page_number := page_number
                   scraped_at := now
                   is_show_hn := strContains title_lower "show hn"
                   is_ask_hn := strContains title_lower "ask hn"
                   is_job := false
                   is_github_link := strContains url_lower "github.com"
                   is_twitter_link := strContains url_lower "twitter.com" ||
                     strContains url_lower "x.com"
                   is_yc_company := strContains title_lower "yc" ||
                     strContains (pyLower title) "(yc" }

/-- `HackerNewsScraper.parse_page` (src/scraper.py 104-259). -/
def parse_page_scraper (now page : Int) (rows : List PostRow) : List HNPost :=
  rows.filterMap (parseRowScraper now page)

/-- `HNWebScraper.parse_page` (src/hackernews.py 497-628). -/
def parse_page_web (now page : Int) (rows : List PostRow) : List HNPost :=
  rows.filterMap (parseRowWeb now page)

/-- Rows on which the two front-page parsers coincide: the two rank
pipelines agree, the link href is empty or absolute, the site marker is
not a bare `span.sitestr`, the metadata row has a subtext cell whose links
are the whole row's links, and any score text is blank or has a parseable
leading integer. -/
def rowAgrees (row : PostRow) : Bool :=
  (decide ((match row.rankText with
      | none => some (0 : Int)
      | some txt => pyIntL (stripBy (fun c => c = '.') txt.data))
    = (match row.rankText with
      | none => some (0 : Int)
      | some txt => pyIntL (rstripBy (fun c => c = '.') (pyStripL txt.data))))) &&
  (match row.titleline with
    | none => true
    | some tl =>
      ((tl.href.getD "").isEmpty || strStartsWith (tl.href.getD "") "http") &&
      (match tl.mark with
        | SiteMark.bare _ => false
        | _ => true)) &&
  (match row.nextRow with
    | none => true
    | some mr =>
      match mr.subtext with
      | none => false
      | some st =>
        (mr.allLinkTexts == st.linkTexts) &&
        (match st.scoreText with
          | none => true
          | some sc =>
            (pyStrip sc).isEmpty || !((firstToken (pyStrip sc)).bind pyInt).isNone))

/-! ### Correctness of the decimal codec -/

theorem decodeDigitsAux_append (a b : List Char) (acc : Nat) :
    decodeDigitsAux (a ++ b) acc =
      (decodeDigitsAux a acc).bind (decodeDigitsAux b) := by
  induction a generalizing acc with
  | nil => simp [decodeDigitsAux]
  | cons c t ih =>
    simp only [List.cons_append, decodeDigitsAux]
    by_cases h : c.isDigit
    · simp [h, ih]
    · simp [h]

theorem digitChar_toNat (n : Nat) (h : n < 10) : (digitChar n).toNat = 48 + n := by
  interval_cases n <;> decide

theorem digitChar_isDigit (n : Nat) (h : n < 10) : (digitChar n).isDigit = true := by
  interval_cases n <;> decide

theorem digitChar_sub48 (n : Nat) (h : n < 10) : (digitChar n).toNat - 48 = n := by
  rw [digitChar_toNat n h]
  omega

theorem natDigitsAux_spec (fuel n : Nat) (h : n < fuel) :
    (∀ c ∈ natDigitsAux fuel n, c.isDigit = true) ∧
      (∀ acc, decodeDigitsAux (natDigitsAux fuel n) acc =
        some (acc * 10 ^ (natDigitsAux fuel n).length + n)) ∧
      natDigitsAux fuel n ≠ [] := by
  induction fuel generalizing n with
  | zero => omega
  | succ fuel ih =>
    by_cases hn : n < 10
    · refine ⟨?_, ?_, ?_⟩
      · intro c hc
        simp only [natDigitsAux, if_pos hn, List.mem_singleton] at hc
        subst hc
        exact digitChar_isDigit n hn
      · intro acc
        have h1 : natDigitsAux (fuel + 1) n = [digitChar n] := by
          rw [natDigitsAux, if_pos hn]
        rw [h1]
        simp [decodeDigitsAux, digitChar_isDigit n hn, digitChar_sub48 n hn]
      · simp [natDigitsAux, if_pos hn]
    · have hdiv : n / 10 < fuel := by
        have h1 : n / 10 < n := Nat.div_lt_self (by omega) (by omega)
        omega
      have hm : n % 10 < 10 := Nat.mod_lt n (by omega)
      obtain ⟨ihdig, ihval, ihne⟩ := ih (n / 10) hdiv
      have hshape : natDigitsAux (fuel + 1) n
          = natDigitsAux fuel (n / 10) ++ [digitChar (n % 10)] := by
        rw [natDigitsAux, if_neg hn]
      refine ⟨?_, ?_, ?_⟩
      · intro c hc
        rw [hshape] at hc
        simp only [List.mem_append, List.mem_singleton] at hc
        rcases hc with hc | hc
        · exact ihdig c hc
        · subst hc; exact digitChar_isDigit _ hm
      · intro acc
        have hone : ∀ a : Nat, decodeDigitsAux [digitChar (n % 10)] a
            = some (a * 10 + n % 10) := by
          intro a
          simp [decodeDigitsAux, digitChar_isDigit _ hm, digitChar_sub48 _ hm]
        rw [hshape, decodeDigitsAux_append, ihval]
        show decodeDigitsAux [digitChar (n % 10)]
            (acc * 10 ^ (natDigitsAux fuel (n / 10)).length + n / 10) = _
        rw [hone]
        simp only [List.length_append, List.length_singleton]
        congr 1
        calc (acc * 10 ^ (natDigitsAux fuel (n / 10)).length + n / 10) * 10 + n % 10
            = acc * (10 ^ (natDigitsAux fuel (n / 10)).length * 10)
                + (10 * (n / 10) + n % 10) := by ring
          _ = acc * 10 ^ ((natDigitsAux fuel (n / 10)).length + 1) + n := by
              rw [Nat.div_add_mod, pow_succ]
      · rw [hshape]
        simp

theorem natDigits_isDigit (n : Nat) : ∀ c ∈ natDigits n, c.isDigit = true :=
  (natDigitsAux_spec (n + 1) n (by omega)).1

theorem natDigits_ne_nil (n : Nat) : natDigits n ≠ [] :=
  (natDigitsAux_spec (n + 1) n (by omega)).2.2

theorem decodeDigits_natDigits (n : Nat) : decodeDigits (natDigits n) = some n := by
  have h := (natDigitsAux_spec (n + 1) n (by omega)).2.1 0
  have hne := natDigits_ne_nil n
  cases hd : natDigits n with
  | nil => exact absurd hd hne
  | cons c t =>
    have hd' : natDigitsAux (n + 1) n = c :: t := hd
    rw [hd'] at h
    simp only [decodeDigits]
    rw [h]
    simp

theorem dropWhile_eq_self_of_all (p : Char → Bool) (l : List Char)
    (h : ∀ c ∈ l, p c = false) : l.dropWhile p = l := by
  cases l with
  | nil => rfl
  | cons c t => simp [List.dropWhile_cons, h c (by simp)]

theorem stripBy_eq_self (p : Char → Bool) (l : List Char)
    (h : ∀ c ∈ l, p c = false) : stripBy p l = l := by
  unfold stripBy lstripBy rstripBy
  rw [dropWhile_eq_self_of_all p l h]
  rw [dropWhile_eq_self_of_all p l.reverse (by intro c hc; exact h c (List.mem_reverse.mp hc))]
  exact List.reverse_reverse l

theorem isDigit_not_pySpace (c : Char) (h : c.isDigit = true) : isPySpace c = false := by
  cases hb : isPySpace c with
  | false => rfl
  | true =>
    exfalso
    simp only [isPySpace, Bool.or_eq_true, decide_eq_true_eq] at hb
    rcases hb with ((((h1 | h1) | h1) | h1) | h1) | h1 <;> subst h1 <;> exact absurd h (by decide)

theorem pyInt_intToStr (n : Int) : pyInt (intToStr n) = some n := by
  unfold pyInt intToStr
  by_cases hn : n < 0
  · rw [if_pos hn]
    show pyIntL ('-' :: natDigits n.natAbs) = some n
    unfold pyIntL
    have hstrip : stripBy isPySpace ('-' :: natDigits n.natAbs)
        = '-' :: natDigits n.natAbs := by
      apply stripBy_eq_self
      intro c hc
      rcases List.mem_cons.mp hc with h1 | h1
      · subst h1; decide
      · exact isDigit_not_pySpace c (natDigits_isDigit _ c h1)
    rw [hstrip]
    show (if ('-' : Char) = '-' then (decodeDigits (natDigits n.natAbs)).map (fun k => -(k : Int))
      else if ('-' : Char) = '+' then (decodeDigits (natDigits n.natAbs)).map (fun k => (k : Int))
      else (decodeDigits ('-' :: natDigits n.natAbs)).map (fun k => (k : Int))) = some n
    rw [if_pos rfl, decodeDigits_natDigits]
    have habs : -((n.natAbs : Nat) : Int) = n := by omega
    show some (-((n.natAbs : Nat) : Int)) = some n
    exact congrArg some habs
  · rw [if_neg hn]
    show pyIntL (natDigits n.natAbs) = some n
    unfold pyIntL
    have hstrip : stripBy isPySpace (natDigits n.natAbs) = natDigits n.natAbs := by
      apply stripBy_eq_self
      intro c hc
      exact isDigit_not_pySpace c (natDigits_isDigit _ c hc)
    rw [hstrip]
    cases hd : natDigits n.natAbs with
    | nil => exact absurd hd (natDigits_ne_nil _)
    | cons c t =>
      have hcdig : c.isDigit = true := natDigits_isDigit _ c (by rw [hd]; simp)
      have hc1 : ¬(c = '-') := by intro he; subst he; exact absurd hcdig (by decide)
      have hc2 : ¬(c = '+') := by intro he; subst he; exact absurd hcdig (by decide)
      show (if c = '-' then (decodeDigits t).map (fun k => -(k : Int))
        else if c = '+' then (decodeDigits t).map (fun k => (k : Int))
        else (decodeDigits (c :: t)).map (fun k => (k : Int))) = some n
      rw [if_neg hc1, if_neg hc2, ← hd, decodeDigits_natDigits]
      have habs : ((n.natAbs : Nat) : Int) = n := by omega
      show some (((n.natAbs : Nat) : Int)) = some n
      exact congrArg some habs

theorem intToStr_ne_empty (n : Int) : intToStr n ≠ "" := by
  unfold intToStr
  by_cases hn : n < 0
  · rw [if_pos hn]
    intro h
    have := congrArg String.data h
    simp at this
  · rw [if_neg hn]
    intro h
    have := congrArg String.data h
    simp at this
    exact absurd this (natDigits_ne_nil _)

/-! ### List helpers for the resolver proofs -/

theorem takeWhile_append_all (p : Char → Bool) (a b : List Char)
    (h : ∀ c ∈ a, p c = true) : (a ++ b).takeWhile p = a ++ b.takeWhile p := by
  induction a with
  | nil => simp
  | cons c t ih =>
    have hc := h c (List.mem_cons_self c t)
    have ht := ih (fun x hx => h x (List.mem_cons_of_mem c hx))
    simp [List.takeWhile_cons, hc, ht]

theorem dropWhile_append_all (p : Char → Bool) (a b : List Char)
    (h : ∀ c ∈ a, p c = true) : (a ++ b).dropWhile p = b.dropWhile p := by
  induction a with
  | nil => simp
  | cons c t ih =>
    have hc := h c (List.mem_cons_self c t)
    have ht := ih (fun x hx => h x (List.mem_cons_of_mem c hx))
    simp [List.dropWhile_cons, hc, ht]

theorem takeWhile_all (p : Char → Bool) (l : List Char)
    (h : ∀ c ∈ l, p c = true) : l.takeWhile p = l := by
  induction l with
  | nil => rfl
  | cons c t ih =>
    have hc := h c (List.mem_cons_self c t)
    have ht := ih (fun x hx => h x (List.mem_cons_of_mem c hx))
    simp [List.takeWhile_cons, hc, ht]

theorem splitSlashL_ne_nil (l : List Char) : splitSlashL l ≠ [] := by
  cases l with
  | nil => simp [splitSlashL]
  | cons c t =>
    simp only [splitSlashL]
    by_cases h : c = '/'
    · simp [h]
    · simp only [if_neg h]
      cases splitSlashL t <;> simp

theorem splitSlashL_no_slash (l : List Char) (h : ∀ c ∈ l, ¬(c = '/')) :
    splitSlashL l = [l] := by
  induction l with
  | nil => rfl
  | cons c t ih =>
    simp only [splitSlashL, if_neg (h c (List.mem_cons_self c t))]
    rw [ih (fun x hx => h x (List.mem_cons_of_mem c hx))]

theorem splitSlashL_append (s r : List Char) (h : ∀ c ∈ s, ¬(c = '/')) :
    splitSlashL (s ++ '/' :: r) = s :: splitSlashL r := by
  induction s with
  | nil => simp [splitSlashL]
  | cons c t ih =>
    have ht := ih (fun x hx => h x (List.mem_cons_of_mem c hx))
    simp only [List.cons_append, splitSlashL, if_neg (h c (List.mem_cons_self c t))]
    rw [show t.append ('/' :: r) = t ++ '/' :: r from rfl, ht]

theorem afterSchemeSep_https (x : List Char) :
    afterSchemeSep ('h' :: 't' :: 't' :: 'p' :: 's' :: ':' :: '/' :: '/' :: x)
      = some x := by
  simp [afterSchemeSep]

/-- The resolver on a well-formed repository URL whose domain is one of the
two accepted spellings. -/
theorem extractRepoCore_github (dom owner name : List Char)
    (hdom : dom = "github.com".data ∨ dom = "www.github.com".data)
    (ho : owner ≠ []) (hn : name ≠ [])
    (hoc : ∀ c ∈ owner, c ≠ '/' ∧ c ≠ '?' ∧ c ≠ '#')
    (hnc : ∀ c ∈ name, c ≠ '/' ∧ c ≠ '?' ∧ c ≠ '#') :
    extractRepoCore ("https://".data ++ (dom ++ ('/' :: (owner ++ ('/' :: name)))))
      = some (String.mk owner, String.mk
          (if List.isSuffixOf ['.', 'g', 'i', 't'] name
            then name.take (name.length - 4) else name)) := by
  have hd8 : "https://".data = ['h', 't', 't', 'p', 's', ':', '/', '/'] := rfl
  have hrest : "https://".data ++ (dom ++ ('/' :: (owner ++ ('/' :: name))))
      = 'h' :: 't' :: 't' :: 'p' :: 's' :: ':' :: '/' :: '/'
        :: (dom ++ ('/' :: (owner ++ ('/' :: name)))) := by
    rw [hd8]
    simp
  have hdomchars : ∀ c ∈ dom, (fun c => !endsNetloc c) c = true := by
    rcases hdom with h | h <;> subst h <;> decide
  have hparse : urlparseL ("https://".data ++ (dom ++ ('/' :: (owner ++ ('/' :: name)))))
      = { netloc := dom, path := '/' :: (owner ++ ('/' :: name)) } := by
    rw [hrest]
    unfold urlparseL
    rw [afterSchemeSep_https]
    have htake : (dom ++ ('/' :: (owner ++ ('/' :: name)))).takeWhile
        (fun c => !endsNetloc c) = dom := by
      rw [takeWhile_append_all _ _ _ hdomchars, List.takeWhile_cons]
      norm_num [endsNetloc]
    have hdrop : (dom ++ ('/' :: (owner ++ ('/' :: name)))).dropWhile
        (fun c => !endsNetloc c) = '/' :: (owner ++ ('/' :: name)) := by
      rw [dropWhile_append_all _ _ _ hdomchars, List.dropWhile_cons]
      norm_num [endsNetloc]
    have hpath : ('/' :: (owner ++ ('/' :: name))).takeWhile
        (fun c => !endsPath c) = '/' :: (owner ++ ('/' :: name)) := by
      apply takeWhile_all
      intro c hc
      rcases List.mem_cons.mp hc with h1 | h1
      · subst h1; decide
      · rcases List.mem_append.mp h1 with h2 | h2
        · obtain ⟨_, h3, h4⟩ := hoc c h2
          simp [endsPath, h3, h4]
        · rcases List.mem_cons.mp h2 with h3 | h3
          · subst h3; decide
          · obtain ⟨_, h4, h5⟩ := hnc c h3
            simp [endsPath, h4, h5]
    simp only [htake, hdrop, hpath]
  have hne : ("https://".data ++ (dom ++ ('/' :: (owner ++ ('/' :: name))))).isEmpty
      = false := by
    rw [hrest]
    rfl
  unfold extractRepoCore
  rw [hne]
  simp only [Bool.false_eq_true, if_false, hparse]
  rw [if_pos hdom]
  have hsplit : splitSlashL ('/' :: (owner ++ ('/' :: name)))
      = [] :: owner :: [name] := by
    have h0 : ('/' :: (owner ++ ('/' :: name)))
        = [] ++ '/' :: (owner ++ ('/' :: name)) := by simp
    rw [h0, splitSlashL_append [] _ (by simp),
      splitSlashL_append owner _ (fun c hc => (hoc c hc).1),
      splitSlashL_no_slash name (fun c hc => (hnc c hc).1)]
  rw [hsplit]
  have ho' : owner.isEmpty = false := by
    cases owner with
    | nil => exact absurd rfl ho
    | cons a t => rfl
  have hn' : name.isEmpty = false := by
    cases name with
    | nil => exact absurd rfl hn
    | cons a t => rfl
  have hfilter : ([] :: owner :: [name]).filter (fun p => !p.isEmpty)
      = [owner, name] := by
    simp [List.filter, ho', hn']
  rw [hfilter]

/-- C5 — The Repository-URL Resolver returns exactly `(owner, name)` with a
trailing `.git` stripped from the name for every URL of the form
`https://github.com/{owner}/{name}` or `https://github.com/{owner}/{name}.git`
(with or without a `www.` prefix on the domain; owner and name non-empty and
free of `/`, `?`, `#`); it returns absent for every URL whose network
location is neither `github.com` nor `www.github.com`, and for every URL
whose path has fewer than two non-empty segments.  It is a total Lean
function, so it never raises. -/
theorem C5_repo_url_resolver :
    (∀ owner name : List Char, owner ≠ [] → name ≠ [] →
      (∀ c ∈ owner, c ≠ '/' ∧ c ≠ '?' ∧ c ≠ '#') →
      (∀ c ∈ name, c ≠ '/' ∧ c ≠ '?' ∧ c ≠ '#') →
      (¬ List.isSuffixOf ['.', 'g', 'i', 't'] name →
        extract_repo_info (some (String.mk
            ("https://".data ++ ("github.com".data ++ ('/' :: (owner ++ ('/' :: name)))))))
          = some (String.mk owner, String.mk name) ∧
        extract_repo_info (some (String.mk
            ("https://".data ++ ("www.github.com".data ++ ('/' :: (owner ++ ('/' :: name)))))))
          = some (String.mk owner, String.mk name)) ∧
      extract_repo_info (some (String.mk
          ("https://".data ++ ("github.com".data ++ ('/' :: (owner ++ ('/' ::
            (name ++ ['.', 'g', 'i', 't']))))))))
        = some (String.mk owner, String.mk name) ∧
      extract_repo_info (some (String.mk
          ("https://".data ++ ("www.github.com".data ++ ('/' :: (owner ++ ('/' ::
            (name ++ ['.', 'g', 'i', 't']))))))))
        = some (String.mk owner, String.mk name)) ∧
    (∀ u : String, (urlparseL u.data).netloc ≠ "github.com".data →
      (urlparseL u.data).netloc ≠ "www.github.com".data →
      extract_repo_info (some u) = none) ∧
    (∀ u : String,
      ((splitSlashL (urlparseL u.data).path).filter (fun p => !p.isEmpty)).length < 2 →
      extract_repo_info (some u) = none) := by
  have hgit : ∀ name : List Char,
      (∀ c ∈ name, c ≠ '/' ∧ c ≠ '?' ∧ c ≠ '#') →
      (∀ c ∈ name ++ ['.', 'g', 'i', 't'], c ≠ '/' ∧ c ≠ '?' ∧ c ≠ '#') := by
    intro name hnc c hc
    rcases List.mem_append.mp hc with h | h
    · exact hnc c h
    · fin_cases h <;> exact ⟨by decide, by decide, by decide⟩
  refine ⟨?_, ?_, ?_⟩
  · intro owner name ho hn hoc hnc
    refine ⟨?_, ?_, ?_⟩
    · intro hnosuf
      constructor
      · have h := extractRepoCore_github "github.com".data owner name
          (Or.inl rfl) ho hn hoc hnc
        rw [if_neg hnosuf] at h
        exact h
      · have h := extractRepoCore_github "www.github.com".data owner name
          (Or.inr rfl) ho hn hoc hnc
        rw [if_neg hnosuf] at h
        exact h
    · have h := extractRepoCore_github "github.com".data owner
        (name ++ ['.', 'g', 'i', 't']) (Or.inl rfl) ho (by simp) hoc
        (hgit name hnc)
      rw [if_pos (List.isSuffixOf_iff_suffix.mpr (List.suffix_append name _))] at h
      have hlen : (name ++ ['.', 'g', 'i', 't']).length - 4 = name.length := by
        simp
      rw [hlen, List.take_left] at h
      exact h
    · have h := extractRepoCore_github "www.github.com".data owner
        (name ++ ['.', 'g', 'i', 't']) (Or.inr rfl) ho (by simp) hoc
        (hgit name hnc)
      rw [if_pos (List.isSuffixOf_iff_suffix.mpr (List.suffix_append name _))] at h
      have hlen : (name ++ ['.', 'g', 'i', 't']).length - 4 = name.length := by
        simp
      rw [hlen, List.take_left] at h
      exact h
  · intro u h1 h2
    show extractRepoCore u.data = none
    unfold extractRepoCore
    by_cases he : u.data.isEmpty
    · rw [he]
      rfl
    · rw [Bool.eq_false_iff.mpr he]
      simp only [Bool.false_eq_true, if_false]
      rw [if_neg (by exact fun h => h.elim h1 h2)]
  · intro u hlen
    show extractRepoCore u.data = none
    unfold extractRepoCore
    by_cases he : u.data.isEmpty
    · rw [he]
      rfl
    · rw [Bool.eq_false_iff.mpr he]
      simp only [Bool.false_eq_true, if_false]
      by_cases hdom : (urlparseL u.data).netloc = "github.com".data ∨
          (urlparseL u.data).netloc = "www.github.com".data
      · rw [if_pos hdom]
        cases hsp : (splitSlashL (urlparseL u.data).path).filter (fun p => !p.isEmpty) with
        | nil => rfl
        | cons a t =>
          cases t with
          | nil => rfl
          | cons b t2 =>
            rw [hsp] at hlen
            exact absurd hlen (by simp)
      · rw [if_neg hdom]

/-- Witness: the C5 theorem applied at concrete inputs. -/
theorem C5_repo_url_resolver_witness :
    extract_repo_info (some (String.mk
        ("https://".data ++ ("github.com".data ++ ('/' :: (['a'] ++ ('/' :: ['b'])))))))
      = some (String.mk ['a'], String.mk ['b']) ∧
    extract_repo_info (some (String.mk
        ("https://".data ++ ("www.github.com".data ++ ('/' :: (['a'] ++ ('/' ::
          (['b'] ++ ['.', 'g', 'i', 't']))))))))
      = some (String.mk ['a'], String.mk ['b']) ∧
    extract_repo_info (some "https://gitlab.com/a/b") = none ∧
    extract_repo_info (some "https://github.com/justowner") = none := by
  refine ⟨?_, ?_, ?_, ?_⟩
  · exact ((C5_repo_url_resolver.1 ['a'] ['b'] (by decide) (by decide)
      (by decide) (by decide)).1 (by decide)).1
  · exact (C5_repo_url_resolver.1 ['a'] ['b'] (by decide) (by decide)
      (by decide) (by decide)).2.2
  · exact C5_repo_url_resolver.2.1 "https://gitlab.com/a/b" (by decide) (by decide)
  · exact C5_repo_url_resolver.2.2 "https://github.com/justowner" (by decide)

/-- C1 — For a post with resolved timestamp `T`, enrichment sets
before = #events strictly earlier than `T`, after = #events at or later
than `T`, total = length; for events at `[T-2, T-1, T+1]` this is
before = 2, after = 1, total = 3; with no resolved timestamp both counts
are left at zero. -/
theorem C1_before_after_counts :
    (∀ (post : HNPost) (full : String) (stars : List GitHubStar) (now T : Int),
      post.posted_at = some T →
      (enrichPostWithStars post full stars now).github_stars_before_hn
          = some ((stars.filter (fun s => s.starred_at < T)).length : Int) ∧
      (enrichPostWithStars post full stars now).github_stars_after_hn
          = some ((stars.filter (fun s => s.starred_at ≥ T)).length : Int) ∧
      (enrichPostWithStars post full stars now).github_total_stars
          = some ((stars.length : Nat) : Int)) ∧
    (∀ (post : HNPost) (full : String) (stars : List GitHubStar) (now : Int),
      post.posted_at = none →
      (enrichPostWithStars post full stars now).github_stars_before_hn = some 0 ∧
      (enrichPostWithStars post full stars now).github_stars_after_hn = some 0 ∧
      (enrichPostWithStars post full stars now).github_total_stars
          = some ((stars.length : Nat) : Int)) ∧
    (∀ (post : HNPost) (full o r u1 u2 u3 : String) (now T : Int),
      post.posted_at = some T →
      (enrichPostWithStars post full
          [⟨o, r, T - 2, u1⟩, ⟨o, r, T - 1, u2⟩, ⟨o, r, T + 1, u3⟩] now).github_stars_before_hn
        = some 2 ∧
      (enrichPostWithStars post full
          [⟨o, r, T - 2, u1⟩, ⟨o, r, T - 1, u2⟩, ⟨o, r, T + 1, u3⟩] now).github_stars_after_hn
        = some 1 ∧
      (enrichPostWithStars post full
          [⟨o, r, T - 2, u1⟩, ⟨o, r, T - 1, u2⟩, ⟨o, r, T + 1, u3⟩] now).github_total_stars
        = some 3) := by
  refine ⟨?_, ?_, ?_⟩
  · intro post full stars now T h
    simp [enrichPostWithStars, computeStarData, applyStarData, h]
  · intro post full stars now h
    simp [enrichPostWithStars, computeStarData, applyStarData, h]
  · intro post full o r u1 u2 u3 now T h
    have h1 : decide (T - 2 < T) = true := decide_eq_true (by omega)
    have h2 : decide (T - 1 < T) = true := decide_eq_true (by omega)
    have h3 : decide (T + 1 < T) = false := decide_eq_false (by omega)
    have h4 : decide (T - 2 ≥ T) = false := decide_eq_false (by omega)
    have h5 : decide (T - 1 ≥ T) = false := decide_eq_false (by omega)
    have h6 : decide (T + 1 ≥ T) = true := decide_eq_true (by omega)
    refine ⟨?_, ?_, ?_⟩ <;>
      simp [enrichPostWithStars, computeStarData, applyStarData, h,
        List.filter_cons, h1, h2, h3, h4, h5, h6]

/-- Witness: C1 applied at a concrete post, concrete stars and `T = 100`. -/
theorem C1_before_after_counts_witness :
    (enrichPostWithStars
        { rank := 0, post_id := "1", title := "t", points := 0, author := "",
          comments_count := 0, age_text := "", posted_at := some 100,
          page_number := 0, scraped_at := 0 }
        "o/r" [⟨"o", "r", 98, "a"⟩, ⟨"o", "r", 99, "b"⟩, ⟨"o", "r", 101, "c"⟩]
        7).github_stars_before_hn = some 2 ∧
    (enrichPostWithStars
        { rank := 0, post_id := "1", title := "t", points := 0, author := "",
          comments_count := 0, age_text := "", posted_at := some 100,
          page_number := 0, scraped_at := 0 }
        "o/r" [⟨"o", "r", 98, "a"⟩, ⟨"o", "r", 99, "b"⟩, ⟨"o", "r", 101, "c"⟩]
        7).github_stars_after_hn = some 1 ∧
    (enrichPostWithStars
        { rank := 0, post_id := "2", title := "t", points := 0, author := "",
          comments_count := 0, age_text := "", posted_at := none,
          page_number := 0, scraped_at := 0 }
        "o/r" [⟨"o", "r", 98, "a"⟩] 7).github_stars_before_hn = some 0 := by
  refine ⟨?_, ?_, ?_⟩
  · exact ((C1_before_after_counts.2.2
      { rank := 0, post_id := "1", title := "t", points := 0, author := "",
        comments_count := 0, age_text := "", posted_at := some 100,
        page_number := 0, scraped_at := 0 }
      "o/r" "o" "r" "a" "b" "c" 7 100 rfl).1)
  · exact ((C1_before_after_counts.2.2
      { rank := 0, post_id := "1", title := "t", points := 0, author := "",
        comments_count := 0, age_text := "", posted_at := some 100,
        page_number := 0, scraped_at := 0 }
      "o/r" "o" "r" "a" "b" "c" 7 100 rfl).2.1)
  · exact (C1_before_after_counts.2.1
      { rank := 0, post_id := "2", title := "t", points := 0, author := "",
        comments_count := 0, age_text := "", posted_at := none,
        page_number := 0, scraped_at := 0 }
      "o/r" [⟨"o", "r", 98, "a"⟩] 7 rfl).1

theorem fetch_all_stars_loop_nil (owner repo : String) (maxPages : Option Int)
    (acc : List GitHubStar) (page : Int) :
    fetch_all_stars_loop owner repo maxPages [] acc page = acc := by
  rw [fetch_all_stars_loop.eq_def]
  simp

theorem fetch_all_stars_loop_err (owner repo : String) (maxPages : Option Int)
    (rest : List PageResp) (acc : List GitHubStar) (page : Int) :
    fetch_all_stars_loop owner repo maxPages (PageResp.err :: rest) acc page = acc := by
  rw [fetch_all_stars_loop.eq_def]
  simp

theorem fetch_all_stars_loop_ok (owner repo : String) (maxPages : Option Int)
    (data : List RawStarItem) (rest : List PageResp) (acc : List GitHubStar)
    (page : Int) :
    fetch_all_stars_loop owner repo maxPages (PageResp.ok data :: rest) acc page
      = if pageCapHit maxPages page then acc
        else
          let stars := data.filterMap (convertStarItem owner repo)
          if stars.isEmpty then acc
          else if data.length ≠ STARS_PER_PAGE then acc ++ stars
          else fetch_all_stars_loop owner repo maxPages rest (acc ++ stars) (page + 1) := by
  rw [fetch_all_stars_loop.eq_def]

/-- C10 — A max-posts bound of 0 is falsy in `if max_posts:` and a page cap
of 0 is falsy in `if max_pages and ...`, so both fetchers treat 0 exactly
like an absent bound and fetch without limit. -/
theorem C10_zero_bound_is_unlimited :
    (∀ (now : Int) (pages : List (List Hit)),
      fetch_posts_in_timeframe now pages (some 0)
        = fetch_posts_in_timeframe now pages none) ∧
    (∀ (owner repo : String) (pages : List PageResp),
      fetch_all_stars owner repo pages (some 0)
        = fetch_all_stars owner repo pages none) := by
  constructor
  · intro now pages
    unfold fetch_posts_in_timeframe
    suffices h : ∀ (ps : List (List Hit)) (acc : List HNPost) (page : Int),
        fetchPostsLoop now (some 0) ps acc page = fetchPostsLoop now none ps acc page by
      exact h pages [] 0
    intro ps
    induction ps with
    | nil => intro acc page; rfl
    | cons hits rest ih =>
      intro acc page
      simp only [fetchPostsLoop,
        show ∀ n, hitsBudget (some 0) n = some 1000 from fun _ => rfl,
        show ∀ n, hitsBudget none n = some 1000 from fun _ => rfl]
      split
      · rfl
      · rw [ih]
  · intro owner repo pages
    unfold fetch_all_stars
    suffices h : ∀ (ps : List PageResp) (acc : List GitHubStar) (page : Int),
        fetch_all_stars_loop owner repo (some 0) ps acc page
          = fetch_all_stars_loop owner repo none ps acc page by
      exact h pages [] 1
    intro ps
    induction ps with
    | nil =>
      intro acc page
      simp [fetch_all_stars_loop, pageCapHit]
    | cons pr rest ih =>
      intro acc page
      have hcap : pageCapHit (some 0) page = false := by simp [pageCapHit]
      have hcap' : pageCapHit none page = false := rfl
      cases pr with
      | err => rw [fetch_all_stars_loop_err, fetch_all_stars_loop_err]
      | ok data =>
        rw [fetch_all_stars_loop_ok, fetch_all_stars_loop_ok, hcap, hcap']
        simp only [Bool.false_eq_true, if_false]
        split
        · rfl
        · split
          · rfl
          · rw [ih]

/-- C4 counterexample — a page whose 100 raw items all fail conversion ends
the run by itself: with a full page of malformed items followed by a page
holding one convertible star, `fetch_all_stars` returns `[]`, although the
first page had exactly the maximum page size (so it did not signal
no-more-pages), no transport error occurred, and no page cap was given. -/
theorem C4_all_malformed_page_stops_run :
    fetch_all_stars "o" "r"
        [PageResp.ok (List.replicate 100 ({ starred_at := none, user_login := none } : RawStarItem)),
         PageResp.ok [{ starred_at := some 5, user_login := some "u" }]] none = [] ∧
    (List.replicate 100 ({ starred_at := none, user_login := none } : RawStarItem)).length
      = STARS_PER_PAGE ∧
    convertStarItem "o" "r" { starred_at := some 5, user_login := some "u" }
      = some { repo_owner := "o", repo_name := "r", starred_at := 5, user_login := "u" } := by
  refine ⟨?_, ?_, ?_⟩ <;> rfl

/-- C4 amended — malformed items are skipped per item without aborting the
page (the page yields exactly the convertible items), and pagination
continues past a page that still yields at least one converted star and a
full raw count; but a page whose converted list is empty (in particular a
full page whose items all fail conversion) ends the run with the stars
accumulated so far, in addition to the no-more-pages signal, the page cap
and transport errors. -/
theorem C4_star_pagination :
    (∀ (owner repo : String) (pages : List PageResp) (page : Nat)
        (items : List RawStarItem),
      pages.getD (page - 1) (PageResp.ok []) = PageResp.ok items →
      fetch_stars_page owner repo pages page
        = some (items.filterMap (convertStarItem owner repo),
            items.length == STARS_PER_PAGE)) ∧
    (∀ (owner repo : String) (maxPages : Option Int) (data : List RawStarItem)
        (rest : List PageResp) (acc : List GitHubStar) (page : Int),
      pageCapHit maxPages page = false →
      data.filterMap (convertStarItem owner repo) ≠ [] →
      data.length = STARS_PER_PAGE →
      fetch_all_stars_loop owner repo maxPages (PageResp.ok data :: rest) acc page
        = fetch_all_stars_loop owner repo maxPages rest
            (acc ++ data.filterMap (convertStarItem owner repo)) (page + 1)) ∧
    (∀ (owner repo : String) (maxPages : Option Int) (data : List RawStarItem)
        (rest : List PageResp) (acc : List GitHubStar) (page : Int),
      pageCapHit maxPages page = false →
      data.filterMap (convertStarItem owner repo) = [] →
      fetch_all_stars_loop owner repo maxPages (PageResp.ok data :: rest) acc page
        = acc) := by
  refine ⟨?_, ?_, ?_⟩
  · intro owner repo pages page items h
    unfold fetch_stars_page
    rw [h]
  · intro owner repo maxPages data rest acc page hcap hne hlen
    rw [fetch_all_stars_loop_ok, hcap]
    simp only [Bool.false_eq_true, if_false]
    have hemp : (data.filterMap (convertStarItem owner repo)).isEmpty = false := by
      cases hd : data.filterMap (convertStarItem owner repo) with
      | nil => exact absurd hd hne
      | cons a t => rfl
    simp only [hemp, Bool.false_eq_true, if_false, hlen, ne_eq, not_true_eq_false]

  · intro owner repo maxPages data rest acc page hcap hemp
    rw [fetch_all_stars_loop_ok, hcap]
    simp only [Bool.false_eq_true, if_false, hemp]
    rfl

/-- Witness: C4's amended theorem applied at concrete pages. -/
theorem C4_star_pagination_witness :
    fetch_stars_page "o" "r"
        [PageResp.ok [{ starred_at := none, user_login := none },
                      { starred_at := some 5, user_login := some "u" }]] 1
      = some ([{ repo_owner := "o", repo_name := "r", starred_at := 5, user_login := "u" }],
          false) ∧
    fetch_all_stars_loop "o" "r" none
        [PageResp.ok [{ starred_at := none, user_login := none }]] [] 1 = [] := by
  constructor
  · have h := C4_star_pagination.1 "o" "r"
      [PageResp.ok [{ starred_at := none, user_login := none },
                    { starred_at := some 5, user_login := some "u" }]] 1
      [{ starred_at := none, user_login := none },
       { starred_at := some 5, user_login := some "u" }] rfl
    rw [h]
    rfl
  · exact C4_star_pagination.2.2 "o" "r" none
      [{ starred_at := none, user_login := none }] [] [] 1 rfl rfl

theorem fetchPostsLoop_none_spec (now : Int) :
    ∀ (pages : List (List Hit)) (acc : List HNPost) (page : Int),
      (∀ hs ∈ pages, hs.length ≤ 1000) →
      fetchPostsLoop now none pages acc page = acc ++ specConcatConverted now page pages := by
  intro pages
  induction pages with
  | nil =>
    intro acc page _
    simp [fetchPostsLoop, specConcatConverted]
  | cons hits rest ih =>
    intro acc page h
    have hlen : hits.length ≤ 1000 := h hits (List.mem_cons_self hits rest)
    have htake : hits.take ((1000 : Int)).toNat = hits := List.take_of_length_le hlen
    simp only [fetchPostsLoop, show hitsBudget none acc.length = some 1000 from rfl]
    rw [htake]
    cases hh : hits with
    | nil =>
      simp [specConcatConverted]
    | cons a t =>
      have hne : ((a :: t : List Hit).isEmpty) = false := rfl
      rw [← hh] at hne ⊢
      rw [hne]
      simp only [Bool.false_eq_true, if_false]
      rw [ih _ _ (fun hs hhs => h hs (List.mem_cons_of_mem hits hhs))]
      have hnemp : (hits.isEmpty) = false := hne
      simp [specConcatConverted, hh, List.append_assoc]

theorem fetchPostsLoop_bound (now : Int) (m : Int) (hm : 0 < m) :
    ∀ (pages : List (List Hit)) (acc : List HNPost) (page : Int),
      ((acc.length : Int)) ≤ m →
      (((fetchPostsLoop now (some m) pages acc page).length : Int)) ≤ m := by
  intro pages
  induction pages with
  | nil =>
    intro acc page hacc
    simpa [fetchPostsLoop] using hacc
  | cons hits rest ih =>
    intro acc page hacc
    simp only [fetchPostsLoop]
    have hm0 : m ≠ 0 := by omega
    by_cases hrem : m - (acc.length : Int) ≤ 0
    · have : hitsBudget (some m) acc.length = none := by
        simp [hitsBudget, hm0, hrem]
      rw [this]
      exact hacc
    · have hbud : hitsBudget (some m) acc.length
          = some (min 1000 (m - (acc.length : Int))) := by
        simp [hitsBudget, hm0, hrem]
      rw [hbud]
      simp only
      split
      · exact hacc
      · apply ih
        have h1 : ((hits.take (min 1000 (m - (acc.length : Int))).toNat).filterMap
            (fun hit => convert_api_hit_to_post hit page now)).length
            ≤ (hits.take (min 1000 (m - (acc.length : Int))).toNat).length :=
          List.length_filterMap_le _ _
        have h2 : (hits.take (min 1000 (m - (acc.length : Int))).toNat).length
            ≤ (min 1000 (m - (acc.length : Int))).toNat := by
          rw [List.length_take]
          omega
        have h3 : (min 1000 (m - (acc.length : Int))).toNat
            ≤ (m - (acc.length : Int)).toNat := by
          omega
        rw [List.length_append]
        push_cast
        omega

/-- C3 — With no max-posts bound, the Search-API Fetcher returns exactly
the concatenation, in page order, of the converted hits of the pages
before the first empty page (conversion drops hits with an empty or
missing title); with a positive max-posts bound the returned list never
exceeds the bound.  Pages are assumed to hold at most the requested 1000
hits, as the service guarantees. -/
theorem C3_search_api_fetcher :
    (∀ (now : Int) (pages : List (List Hit)),
      (∀ hs ∈ pages, hs.length ≤ 1000) →
      fetch_posts_in_timeframe now pages none = specConcatConverted now 0 pages) ∧
    (∀ (now : Int) (pages : List (List Hit)) (m : Int), 0 < m →
      (((fetch_posts_in_timeframe now pages (some m)).length : Int)) ≤ m) := by
  constructor
  · intro now pages h
    unfold fetch_posts_in_timeframe
    rw [fetchPostsLoop_none_spec now pages [] 0 h]
    rfl
  · intro now pages m hm
    exact fetchPostsLoop_bound now m hm pages [] 0 (by simp; omega)

/-- Witness: C3 applied to a concrete two-page sequence ending in an empty
page, and to a concrete bounded fetch. -/
theorem C3_search_api_fetcher_witness :
    fetch_posts_in_timeframe 50
        [[{ objectID := some "1", title := some "A" },
          { objectID := some "2", title := some "" },
          { objectID := some "3", title := some "B" }],
         [{ objectID := some "4", title := some "C" }],
         [],
         [{ objectID := some "5", title := some "D" }]] none
      = specConcatConverted 50 0
        [[{ objectID := some "1", title := some "A" },
          { objectID := some "2", title := some "" },
          { objectID := some "3", title := some "B" }],
         [{ objectID := some "4", title := some "C" }],
         [],
         [{ objectID := some "5", title := some "D" }]] ∧
    (((fetch_posts_in_timeframe 50
        [[{ objectID := some "1", title := some "A" },
          { objectID := some "2", title := some "B" },
          { objectID := some "3", title := some "C" }]] (some 2)).length : Int)) ≤ 2 := by
  constructor
  · exact C3_search_api_fetcher.1 50 _ (by decide)
  · exact C3_search_api_fetcher.2 50 _ 2 (by decide)

theorem applyStarData_consistent (p : HNPost) (sd : StarData) :
    enrichmentConsistent (applyStarData p sd) :=
  Or.inl ⟨by simp [applyStarData], by simp [applyStarData], by simp [applyStarData],
    by simp [applyStarData], by simp [applyStarData]⟩

theorem enrichStep_shape (fetch : String → String → List GitHubStar)
    (times : Nat → Int) (st : EnrichState) (post : HNPost) :
    (enrichStep fetch times st post).2 = post ∨
      ∃ sd, (enrichStep fetch times st post).2 = applyStarData post sd := by
  unfold enrichStep
  by_cases hg : isGithubPost post = true
  · rw [if_pos hg]
    cases hx : extract_repo_info post.url with
    | none => exact Or.inl rfl
    | some pr =>
      obtain ⟨owner, repo⟩ := pr
      simp only
      cases hl : st.memo.lookup (owner ++ "/" ++ repo) with
      | some sd => exact Or.inr ⟨sd, rfl⟩
      | none =>
        simp only
        split
        · exact Or.inl rfl
        · exact Or.inr ⟨_, rfl⟩
  · rw [if_neg hg]
    exact Or.inl rfl

theorem enrichLoop_mem (fetch : String → String → List GitHubStar)
    (times : Nat → Int) :
    ∀ (posts : List HNPost) (budget : Option Nat) (st : EnrichState) (q : HNPost),
      q ∈ (enrichLoop fetch times budget st posts).2 →
      ∃ p ∈ posts, q = p ∨ ∃ sd, q = applyStarData p sd := by
  intro posts
  induction posts with
  | nil =>
    intro budget st q hq
    simp [enrichLoop] at hq
  | cons post rest ih =>
    intro budget st q hq
    simp only [enrichLoop] at hq
    by_cases hg : isGithubPost post = true
    · rw [if_pos hg] at hq
      match budget with
      | some 0 =>
        simp only at hq
        exact ⟨q, hq, Or.inl rfl⟩
      | some (b + 1) =>
        simp only at hq
        rcases List.mem_cons.mp hq with h | h
        · exact ⟨post, List.mem_cons_self post rest, h ▸ enrichStep_shape fetch times st post⟩
        · obtain ⟨p, hp, hcase⟩ := ih (some b) (enrichStep fetch times st post).1 q h
          exact ⟨p, List.mem_cons_of_mem post hp, hcase⟩
      | none =>
        simp only at hq
        rcases List.mem_cons.mp hq with h | h
        · exact ⟨post, List.mem_cons_self post rest, h ▸ enrichStep_shape fetch times st post⟩
        · obtain ⟨p, hp, hcase⟩ := ih none (enrichStep fetch times st post).1 q h
          exact ⟨p, List.mem_cons_of_mem post hp, hcase⟩
    · rw [if_neg hg] at hq
      rcases List.mem_cons.mp hq with h | h
      · exact ⟨post, List.mem_cons_self post rest, Or.inl h⟩
      · obtain ⟨p, hp, hcase⟩ := ih budget st q h
        exact ⟨p, List.mem_cons_of_mem post hp, hcase⟩

theorem convert_api_hit_noEnrich (hit : Hit) (page now : Int) :
    (convert_api_hit_to_post hit page now).all noEnrichment = true := by
  simp only [convert_api_hit_to_post]
  repeat' split
  all_goals rfl

theorem parseRowScraper_noEnrich (now page : Int) (row : PostRow) :
    (parseRowScraper now page row).all noEnrichment = true := by
  simp only [parseRowScraper]
  repeat' split
  all_goals rfl

theorem parseRowWeb_noEnrich (now page : Int) (row : PostRow) :
    (parseRowWeb now page row).all noEnrichment = true := by
  simp only [parseRowWeb]
  repeat' split
  all_goals rfl

/-- C6 — Every constructor leaves the five enrichment fields all absent,
and every enrichment run — complete or interrupted after any number of
iterations — produces posts that are each either untouched or fully
enriched; so at every point of the pipeline the five fields are all
populated or all absent. -/
theorem C6_enrichment_fields_all_or_none :
    (∀ (hit : Hit) (page now : Int) (post : HNPost),
      convert_api_hit_to_post hit page now = some post →
      post.github_repo_full_name = none ∧ post.github_total_stars = none ∧
      post.github_stars_before_hn = none ∧ post.github_stars_after_hn = none ∧
      post.github_stars_fetched_at = none) ∧
    (∀ (now page : Int) (row : PostRow) (post : HNPost),
      parseRowScraper now page row = some post →
      post.github_repo_full_name = none ∧ post.github_total_stars = none ∧
      post.github_stars_before_hn = none ∧ post.github_stars_after_hn = none ∧
      post.github_stars_fetched_at = none) ∧
    (∀ (now page : Int) (row : PostRow) (post : HNPost),
      parseRowWeb now page row = some post →
      post.github_repo_full_name = none ∧ post.github_total_stars = none ∧
      post.github_stars_before_hn = none ∧ post.github_stars_after_hn = none ∧
      post.github_stars_fetched_at = none) ∧
    (∀ (fetch : String → String → List GitHubStar) (times : Nat → Int)
        (budget : Option Nat) (posts : List HNPost),
      (∀ p ∈ posts, enrichmentConsistent p) →
      ∀ q ∈ (enrichWithGithubStars fetch times budget posts).2,
        enrichmentConsistent q) := by
  refine ⟨?_, ?_, ?_, ?_⟩
  · intro hit page now post h
    have hall := convert_api_hit_noEnrich hit page now
    rw [h] at hall
    simpa [Option.all, noEnrichment, and_assoc] using hall
  · intro now page row post h
    have hall := parseRowScraper_noEnrich now page row
    rw [h] at hall
    simpa [Option.all, noEnrichment, and_assoc] using hall
  · intro now page row post h
    have hall := parseRowWeb_noEnrich now page row
    rw [h] at hall
    simpa [Option.all, noEnrichment, and_assoc] using hall
  · intro fetch times budget posts hcons q hq
    obtain ⟨p, hp, hcase⟩ := enrichLoop_mem fetch times posts budget _ q hq
    rcases hcase with h | ⟨sd, h⟩
    · rw [h]
      exact hcons p hp
    · rw [h]
      exact applyStarData_consistent p sd

/-- Witness: C6 applied at a concrete hit, concrete rows and a concrete
interrupted enrichment run. -/
theorem C6_enrichment_fields_all_or_none_witness :
    (∀ post, convert_api_hit_to_post { title := some "A" } 0 5 = some post →
      post.github_repo_full_name = none) ∧
    (∀ q ∈ (enrichWithGithubStars (fun _ _ => [⟨"o", "r", 3, "u"⟩]) (fun _ => 9)
        (some 1)
        [{ rank := 0, post_id := "1", title := "t",
           url := some "https://github.com/o/r", points := 0, author := "",
           comments_count := 0, age_text := "", page_number := 0,
           scraped_at := 0, is_github_link := true },
         { rank := 0, post_id := "2", title := "t",
           url := some "https://github.com/o/r", points := 0, author := "",
           comments_count := 0, age_text := "", page_number := 0,
           scraped_at := 0, is_github_link := true }]).2,
      enrichmentConsistent q) := by
  constructor
  · intro post h
    exact (C6_enrichment_fields_all_or_none.1 { title := some "A" } 0 5 post h).1
  · exact C6_enrichment_fields_all_or_none.2.2.2 _ _ (some 1) _ (by decide)

theorem isoDecode_isoEncode (t : Int) : isoDecode (isoEncode t) = some t :=
  pyInt_intToStr t

theorem isEmpty_false_of_ne (s : String) (h : s ≠ "") : s.isEmpty = false := by
  cases hb : s.isEmpty with
  | false => rfl
  | true => exact absurd ((String.isEmpty_iff s).mp hb) h

theorem pyLower_boolToStr (b : Bool) : (pyLower (boolToStr b) == "true") = b := by
  cases b <;> rfl

theorem loadCsvRow_writeCsvRow (p : HNPost) (hu : p.url ≠ some "")
    (hd : p.domain ≠ some "") : loadCsvRow (writeCsvRow p) = some (stripEnrichment p) := by
  obtain ⟨rank, post_id, title, url, domain, points, author, comments_count,
    age_text, posted_at, page_number, scraped_at, f1, f2, f3, f4, f5, f6,
    g1, g2, g3, g4, g5⟩ := p
  simp only at hu hd
  have hurl : (if (optStrCell url).isEmpty = true then (none : Option String)
      else some (optStrCell url)) = url := by
    cases url with
    | none => rfl
    | some s =>
      show (if s.isEmpty = true then _ else _) = _
      rw [isEmpty_false_of_ne s (fun he => hu (by rw [he]))]
      rfl
  have hdom : (if (optStrCell domain).isEmpty = true then (none : Option String)
      else some (optStrCell domain)) = domain := by
    cases domain with
    | none => rfl
    | some s =>
      show (if s.isEmpty = true then _ else _) = _
      rw [isEmpty_false_of_ne s (fun he => hd (by rw [he]))]
      rfl
  cases posted_at with
  | none =>
    unfold loadCsvRow writeCsvRow stripEnrichment
    simp only [pyInt_intToStr, isoDecode_isoEncode, Option.some_bind,
      pyLower_boolToStr, show (optDtCell none).isEmpty = true from rfl,
      if_true, hurl, hdom]
    rfl
  | some t =>
    unfold loadCsvRow writeCsvRow stripEnrichment
    simp only [pyInt_intToStr, isoDecode_isoEncode, Option.some_bind,
      pyLower_boolToStr,
      isEmpty_false_of_ne (optDtCell (some t)) (intToStr_ne_empty t),
      Bool.false_eq_true, if_false,
      show isoDecode (optDtCell (some t)) = some t from isoDecode_isoEncode t,
      Option.map_some', Option.some_bind, hurl, hdom]
    rfl

theorem load_save_roundtrip (posts : List HNPost)
    (h : ∀ p ∈ posts, p.url ≠ some "" ∧ p.domain ≠ some "") :
    load_posts_from_csv (posts.map writeCsvRow) = some (posts.map stripEnrichment) := by
  induction posts with
  | nil => rfl
  | cons p rest ih =>
    obtain ⟨hu, hd⟩ := h p (List.mem_cons_self p rest)
    simp only [List.map_cons, load_posts_from_csv,
      loadCsvRow_writeCsvRow p hu hd, Option.some_bind,
      ih (fun q hq => h q (List.mem_cons_of_mem p hq))]
    rfl

/-- C7 counterexample — the loader never reads the five `github_*` columns,
so the round trip loses enrichment: writing one enriched post and reading
the file back yields a record whose enrichment fields are all absent,
different from the original. -/
theorem C7_roundtrip_drops_enrichment :
    ((save_to_csv
        [{ rank := 1, post_id := "42", title := "A tool", url := some "https://github.com/o/r",
           domain := some "github.com", points := 10, author := "ann",
           comments_count := 3, age_text := "2 hours ago", posted_at := some 1700000000,
           page_number := 0, scraped_at := 1700007200, is_github_link := true,
           github_repo_full_name := some "o/r", github_total_stars := some 7,
           github_stars_before_hn := some 4, github_stars_after_hn := some 3,
           github_stars_fetched_at := some 1700010000 }]).bind load_posts_from_csv)
      = some
        [{ rank := 1, post_id := "42", title := "A tool", url := some "https://github.com/o/r",
           domain := some "github.com", points := 10, author := "ann",
           comments_count := 3, age_text := "2 hours ago", posted_at := some 1700000000,
           page_number := 0, scraped_at := 1700007200, is_github_link := true }] ∧
    ({ rank := 1, post_id := "42", title := "A tool", url := some "https://github.com/o/r",
       domain := some "github.com", points := 10, author := "ann",
       comments_count := 3, age_text := "2 hours ago", posted_at := some 1700000000,
       page_number := 0, scraped_at := 1700007200, is_github_link := true,
       github_repo_full_name := some "o/r", github_total_stars := some 7,
       github_stars_before_hn := some 4, github_stars_after_hn := some 3,
       github_stars_fetched_at := some 1700010000 } : HNPost).github_total_stars
      = some 7 := by
  constructor
  · rfl
  · rfl

/-- C7 amended — for every non-empty list of posts whose optional string
fields are not the empty string, writing and re-reading the file yields
exactly one record per post whose eighteen non-enrichment fields round-trip
(timestamps parse back to the original instant, absent ones serialize as
empty cells and read back as absent), while the five enrichment fields are
read back as absent regardless of their written values. -/
theorem C7_csv_roundtrip :
    ∀ posts : List HNPost, posts ≠ [] →
      (∀ p ∈ posts, p.url ≠ some "" ∧ p.domain ≠ some "") →
      save_to_csv posts = some (posts.map writeCsvRow) ∧
      load_posts_from_csv (posts.map writeCsvRow) = some (posts.map stripEnrichment) := by
  intro posts hne h
  constructor
  · unfold save_to_csv
    rw [if_neg]
    intro hemp
    exact hne (List.isEmpty_iff.mp hemp)
  · exact load_save_roundtrip posts h

/-- Witness: C7's amended theorem applied at a concrete one-post list. -/
theorem C7_csv_roundtrip_witness :
    save_to_csv
        [{ rank := 2, post_id := "7", title := "B", url := none, domain := none,
           points := 5, author := "z", comments_count := 0, age_text := "",
           posted_at := none, page_number := 1, scraped_at := 33 }]
      = some ([{ rank := 2, post_id := "7", title := "B", url := none,
                 domain := none, points := 5, author := "z", comments_count := 0,
                 age_text := "", posted_at := none, page_number := 1,
                 scraped_at := 33 }].map writeCsvRow) ∧
    load_posts_from_csv
        ([{ rank := 2, post_id := "7", title := "B", url := none, domain := none,
            points := 5, author := "z", comments_count := 0, age_text := "",
            posted_at := none, page_number := 1, scraped_at := 33 }].map writeCsvRow)
      = some ([{ rank := 2, post_id := "7", title := "B", url := none,
                 domain := none, points := 5, author := "z", comments_count := 0,
                 age_text := "", posted_at := none, page_number := 1,
                 scraped_at := 33 }].map stripEnrichment) :=
  C7_csv_roundtrip _ (by decide) (by decide)

/-! ### Lemmas for the enrichment memoization (C2) -/

theorem lookup_cons_ne {β : Type} (k k' : String) (v : β) (es : List (String × β))
    (h : k ≠ k') : List.lookup k ((k', v) :: es) = List.lookup k es := by
  rw [List.lookup_cons, beq_eq_false_iff_ne.mpr h]

theorem lookup_cons_eq {β : Type} (k : String) (v : β) (es : List (String × β)) :
    List.lookup k ((k, v) :: es) = some v := by
  rw [List.lookup_cons, beq_self_eq_true]

theorem string_eq_of_data (a b : String) (h : a.data = b.data) : a = b := by
  cases a
  cases b
  exact congrArg String.mk h

theorem splitSlashL_mem_no_slash :
    ∀ (l : List Char) (seg : List Char), seg ∈ splitSlashL l → ∀ c ∈ seg, c ≠ '/' := by
  intro l
  induction l with
  | nil =>
    intro seg hseg
    simp [splitSlashL] at hseg
    simp [hseg]
  | cons c t ih =>
    intro seg hseg
    by_cases hc : c = '/'
    · rw [splitSlashL, if_pos hc] at hseg
      rcases List.mem_cons.mp hseg with h | h
      · simp [h]
      · exact ih seg h
    · rw [splitSlashL, if_neg hc] at hseg
      cases hsp : splitSlashL t with
      | nil => exact absurd hsp (splitSlashL_ne_nil t)
      | cons s ss =>
        rw [hsp] at hseg
        simp only at hseg
        rcases List.mem_cons.mp hseg with h | h
        · subst h
          intro x hx
          rcases List.mem_cons.mp hx with h1 | h1
          · subst h1; exact hc
          · exact ih s (hsp ▸ List.mem_cons_self s ss) x h1
        · exact ih seg (hsp ▸ List.mem_cons_of_mem s h)

theorem extract_repo_info_no_slash (u : Option String) (o r : String)
    (h : extract_repo_info u = some (o, r)) :
    (∀ c ∈ o.data, c ≠ '/') ∧ (∀ c ∈ r.data, c ≠ '/') := by
  cases u with
  | none => exact absurd h (by simp [extract_repo_info])
  | some s =>
    rw [show extract_repo_info (some s) = extractRepoCore s.data from rfl] at h
    unfold extractRepoCore at h
    by_cases he : s.data.isEmpty
    · rw [if_pos he] at h
      exact absurd h (by simp)
    · rw [if_neg he] at h
      by_cases hd : (urlparseL s.data).netloc = "github.com".data ∨
          (urlparseL s.data).netloc = "www.github.com".data
      · rw [if_pos hd] at h
        cases hsp : (splitSlashL (urlparseL s.data).path).filter (fun p => !p.isEmpty) with
        | nil =>
          rw [hsp] at h
          exact absurd h (by simp)
        | cons a t =>
          cases t with
          | nil =>
            rw [hsp] at h
            exact absurd h (by simp)
          | cons b t2 =>
            rw [hsp] at h
            simp only [Option.some.injEq, Prod.mk.injEq] at h
            obtain ⟨h1, h2⟩ := h
            have ha : a ∈ splitSlashL (urlparseL s.data).path :=
              List.mem_of_mem_filter (hsp ▸ List.mem_cons_self a (b :: t2))
            have hb : b ∈ splitSlashL (urlparseL s.data).path :=
              List.mem_of_mem_filter
                (hsp ▸ List.mem_cons_of_mem a (List.mem_cons_self b t2))
            have hano := splitSlashL_mem_no_slash _ a ha
            have hbno := splitSlashL_mem_no_slash _ b hb
            constructor
            · rw [← h1]
              exact hano
            · rw [← h2]
              split
              · intro c hc
                exact hbno c ((List.take_sublist _ _).subset hc)
              · exact hbno
      · rw [if_neg hd] at h
        exact absurd h (by simp)

theorem append_slash_inj (a b a' b' : List Char)
    (ha : ∀ c ∈ a, c ≠ '/') (ha' : ∀ c ∈ a', c ≠ '/')
    (h : a ++ '/' :: b = a' ++ '/' :: b') : a = a' ∧ b = b' := by
  induction a generalizing a' with
  | nil =>
    cases a' with
    | nil => simpa using h
    | cons c t =>
      simp only [List.nil_append, List.cons_append, List.cons.injEq] at h
      exact absurd h.1.symm (ha' c (List.mem_cons_self c t))
  | cons c t ih =>
    cases a' with
    | nil =>
      simp only [List.nil_append, List.cons_append, List.cons.injEq] at h
      exact absurd h.1 (ha c (List.mem_cons_self c t))
    | cons c' t' =>
      simp only [List.cons_append, List.cons.injEq] at h
      obtain ⟨hc, hrest⟩ := h
      obtain ⟨h1, h2⟩ := ih t' (fun x hx => ha x (List.mem_cons_of_mem c hx))
        (fun x hx => ha' x (List.mem_cons_of_mem c' hx)) hrest
      exact ⟨by rw [hc, h1], h2⟩

theorem full_name_pair_inj (o r o2 r2 : String)
    (ho : ∀ c ∈ o.data, c ≠ '/') (ho2 : ∀ c ∈ o2.data, c ≠ '/')
    (h : o ++ "/" ++ r = o2 ++ "/" ++ r2) : o = o2 ∧ r = r2 := by
  have hd : o.data ++ '/' :: r.data = o2.data ++ '/' :: r2.data := by
    have h1 := congrArg String.data h
    rw [String.data_append, String.data_append, String.data_append,
      String.data_append] at h1
    simpa [List.append_assoc] using h1
  obtain ⟨h1, h2⟩ := append_slash_inj o.data r.data o2.data r2.data ho ho2 hd
  exact ⟨string_eq_of_data _ _ h1, string_eq_of_data _ _ h2⟩

theorem enrichStep_cases (fetch : String → String → List GitHubStar)
    (times : Nat → Int) (st : EnrichState) (post : HNPost) :
    (isGithubPost post = false ∧ enrichStep fetch times st post = (st, post)) ∨
    (isGithubPost post = true ∧ extract_repo_info post.url = none ∧
      enrichStep fetch times st post = (st, post)) ∨
    (∃ o2 r2 sd, isGithubPost post = true ∧
      extract_repo_info post.url = some (o2, r2) ∧
      st.memo.lookup (o2 ++ "/" ++ r2) = some sd ∧
      enrichStep fetch times st post = (st, applyStarData post sd)) ∨
    (∃ o2 r2, isGithubPost post = true ∧
      extract_repo_info post.url = some (o2, r2) ∧
      st.memo.lookup (o2 ++ "/" ++ r2) = none ∧ fetch o2 r2 = [] ∧
      enrichStep fetch times st post
        = ({ st with fetchLog := st.fetchLog ++ [o2 ++ "/" ++ r2] }, post)) ∨
    (∃ o2 r2, isGithubPost post = true ∧
      extract_repo_info post.url = some (o2, r2) ∧
      st.memo.lookup (o2 ++ "/" ++ r2) = none ∧ fetch o2 r2 ≠ [] ∧
      enrichStep fetch times st post
        = ({ memo := (o2 ++ "/" ++ r2,
               computeStarData (o2 ++ "/" ++ r2) (fetch o2 r2) post.posted_at
                 (times st.clock)) :: st.memo
             fetchLog := st.fetchLog ++ [o2 ++ "/" ++ r2]
             clock := st.clock + 1 },
           applyStarData post
             (computeStarData (o2 ++ "/" ++ r2) (fetch o2 r2) post.posted_at
               (times st.clock)))) := by
  by_cases hg : isGithubPost post = true
  · cases hx : extract_repo_info post.url with
    | none =>
      refine Or.inr (Or.inl ⟨hg, rfl, ?_⟩)
      unfold enrichStep
      rw [if_pos hg, hx]
    | some pr =>
      obtain ⟨o2, r2⟩ := pr
      cases hl : st.memo.lookup (o2 ++ "/" ++ r2) with
      | some sd =>
        refine Or.inr (Or.inr (Or.inl ⟨o2, r2, sd, hg, rfl, hl, ?_⟩))
        unfold enrichStep
        rw [if_pos hg, hx]
        simp only
        rw [hl]
      | none =>
        cases hf : fetch o2 r2 with
        | nil =>
          refine Or.inr (Or.inr (Or.inr (Or.inl ⟨o2, r2, hg, rfl, hl, hf, ?_⟩)))
          unfold enrichStep
          rw [if_pos hg, hx]
          simp only
          rw [hl, hf]
          rfl
        | cons star stars =>
          refine Or.inr (Or.inr (Or.inr (Or.inr
            ⟨o2, r2, hg, rfl, hl, by simp [hf], ?_⟩)))
          unfold enrichStep
          rw [if_pos hg, hx]
          simp only
          rw [hl, hf]
          rfl
  · have hg' : isGithubPost post = false := by
      cases hb : isGithubPost post
      · rfl
      · exact absurd hb hg
    refine Or.inl ⟨hg', ?_⟩
    unfold enrichStep
    rw [if_neg hg]

theorem enrichStep_const (o r : String) (fetch : String → String → List GitHubStar)
    (times : Nat → Int) (st : EnrichState) (post : HNPost) (sd : StarData)
    (hmemo : st.memo.lookup (o ++ "/" ++ r) = some sd) :
    (enrichStep fetch times st post).1.memo.lookup (o ++ "/" ++ r) = some sd ∧
    (enrichStep fetch times st post).1.fetchLog.count (o ++ "/" ++ r)
      = st.fetchLog.count (o ++ "/" ++ r) ∧
    (resolvesVia o r post → (enrichStep fetch times st post).2 = applyStarData post sd) := by
  rcases enrichStep_cases fetch times st post with
    ⟨hg, he⟩ | ⟨hg, hx, he⟩ | ⟨o2, r2, sd2, hg, hx, hl, he⟩ |
    ⟨o2, r2, hg, hx, hl, hf, he⟩ | ⟨o2, r2, hg, hx, hl, hf, he⟩
  · rw [he]
    exact ⟨hmemo, rfl, fun hres => absurd hres.1 (by simp [hg])⟩
  · rw [he]
    refine ⟨hmemo, rfl, ?_⟩
    intro hres
    obtain ⟨_, hres2⟩ := hres
    rw [hx] at hres2
    exact absurd hres2 (by simp)
  · rw [he]
    refine ⟨hmemo, rfl, ?_⟩
    intro hres
    obtain ⟨_, hres2⟩ := hres
    rw [hx] at hres2
    simp only [Option.some.injEq, Prod.mk.injEq] at hres2
    obtain ⟨ho2, hr2⟩ := hres2
    rw [ho2, hr2, hmemo] at hl
    rw [(Option.some.inj hl)]
  · have hne : o2 ++ "/" ++ r2 ≠ o ++ "/" ++ r := by
      intro heq
      rw [heq, hmemo] at hl
      cases hl
    rw [he]
    refine ⟨hmemo, ?_, ?_⟩
    · simp [List.count_append, List.count_cons, List.count_nil,
        beq_eq_false_iff_ne.mpr hne]
    · intro hres
      obtain ⟨_, hres2⟩ := hres
      rw [hx] at hres2
      simp only [Option.some.injEq, Prod.mk.injEq] at hres2
      exact absurd (by rw [hres2.1, hres2.2]) hne
  · have hne : o2 ++ "/" ++ r2 ≠ o ++ "/" ++ r := by
      intro heq
      rw [heq, hmemo] at hl
      cases hl
    rw [he]
    refine ⟨?_, ?_, ?_⟩
    · show List.lookup (o ++ "/" ++ r) ((o2 ++ "/" ++ r2, _) :: st.memo) = some sd
      rw [lookup_cons_ne _ _ _ _ (Ne.symm hne)]
      exact hmemo
    · simp [List.count_append, List.count_cons, List.count_nil,
        beq_eq_false_iff_ne.mpr hne]
    · intro hres
      obtain ⟨_, hres2⟩ := hres
      rw [hx] at hres2
      simp only [Option.some.injEq, Prod.mk.injEq] at hres2
      exact absurd (by rw [hres2.1, hres2.2]) hne

theorem enrichStep_fresh (o r : String) (ho : ∀ c ∈ o.data, c ≠ '/')
    (fetch : String → String → List GitHubStar) (times : Nat → Int)
    (st : EnrichState) (post : HNPost)
    (hmemo : st.memo.lookup (o ++ "/" ++ r) = none) :
    (¬ resolvesVia o r post →
      (enrichStep fetch times st post).1.memo.lookup (o ++ "/" ++ r) = none ∧
      (enrichStep fetch times st post).1.fetchLog.count (o ++ "/" ++ r)
        = st.fetchLog.count (o ++ "/" ++ r)) ∧
    (resolvesVia o r post → fetch o r ≠ [] →
      (enrichStep fetch times st post).1.memo.lookup (o ++ "/" ++ r)
        = some (computeStarData (o ++ "/" ++ r) (fetch o r) post.posted_at
            (times st.clock)) ∧
      (enrichStep fetch times st post).1.fetchLog.count (o ++ "/" ++ r)
        = st.fetchLog.count (o ++ "/" ++ r) + 1 ∧
      (enrichStep fetch times st post).2
        = applyStarData post (computeStarData (o ++ "/" ++ r) (fetch o r)
            post.posted_at (times st.clock))) := by
  rcases enrichStep_cases fetch times st post with
    ⟨hg, he⟩ | ⟨hg, hx, he⟩ | ⟨o2, r2, sd2, hg, hx, hl, he⟩ |
    ⟨o2, r2, hg, hx, hl, hf, he⟩ | ⟨o2, r2, hg, hx, hl, hf, he⟩
  · constructor
    · intro _
      rw [he]
      exact ⟨hmemo, rfl⟩
    · intro hres _
      exact absurd hres.1 (by simp [hg])
  · constructor
    · intro _
      rw [he]
      exact ⟨hmemo, rfl⟩
    · intro hres _
      obtain ⟨_, hres2⟩ := hres
      rw [hx] at hres2
      exact absurd hres2 (by simp)
  · constructor
    · intro _
      rw [he]
      exact ⟨hmemo, rfl⟩
    · intro hres _
      obtain ⟨_, hres2⟩ := hres
      rw [hx] at hres2
      simp only [Option.some.injEq, Prod.mk.injEq] at hres2
      rw [hres2.1, hres2.2, hmemo] at hl
      cases hl
  · have hpair := extract_repo_info_no_slash post.url o2 r2 hx
    have hne : ¬ resolvesVia o r post → o2 ++ "/" ++ r2 ≠ o ++ "/" ++ r := by
      intro hnres heq
      obtain ⟨h1, h2⟩ := full_name_pair_inj o2 r2 o r hpair.1 ho heq
      exact hnres ⟨hg, by rw [hx, h1, h2]⟩
    constructor
    · intro hnres
      rw [he]
      refine ⟨hmemo, ?_⟩
      simp [List.count_append, List.count_cons, List.count_nil,
        beq_eq_false_iff_ne.mpr (hne hnres)]
    · intro hres hfe
      obtain ⟨_, hres2⟩ := hres
      rw [hx] at hres2
      simp only [Option.some.injEq, Prod.mk.injEq] at hres2
      rw [hres2.1, hres2.2] at hf
      exact absurd hf hfe
  · have hpair := extract_repo_info_no_slash post.url o2 r2 hx
    constructor
    · intro hnres
      have hne : o2 ++ "/" ++ r2 ≠ o ++ "/" ++ r := by
        intro heq
        obtain ⟨h1, h2⟩ := full_name_pair_inj o2 r2 o r hpair.1 ho heq
        exact hnres ⟨hg, by rw [hx, h1, h2]⟩
      rw [he]
      constructor
      · show List.lookup (o ++ "/" ++ r) ((o2 ++ "/" ++ r2, _) :: st.memo) = none
        rw [lookup_cons_ne _ _ _ _ (Ne.symm hne)]
        exact hmemo
      · simp [List.count_append, List.count_cons, List.count_nil,
          beq_eq_false_iff_ne.mpr hne]
    · intro hres _
      obtain ⟨_, hres2⟩ := hres
      rw [hx] at hres2
      simp only [Option.some.injEq, Prod.mk.injEq] at hres2
      obtain ⟨h1, h2⟩ := hres2
      subst h1
      subst h2
      rw [he]
      refine ⟨lookup_cons_eq _ _ _, ?_, rfl⟩
      simp [List.count_append, List.count_cons, List.count_nil]

theorem enrichLoop_github_cons (fetch : String → String → List GitHubStar)
    (times : Nat → Int) (st : EnrichState) (post : HNPost) (rest : List HNPost)
    (hg : isGithubPost post = true) :
    enrichLoop fetch times none st (post :: rest)
      = ((enrichLoop fetch times none (enrichStep fetch times st post).1 rest).1,
         (enrichStep fetch times st post).2 ::
           (enrichLoop fetch times none (enrichStep fetch times st post).1 rest).2) := by
  simp only [enrichLoop]
  rw [if_pos hg]

theorem enrichLoop_other_cons (fetch : String → String → List GitHubStar)
    (times : Nat → Int) (st : EnrichState) (post : HNPost) (rest : List HNPost)
    (hg : ¬ isGithubPost post = true) :
    enrichLoop fetch times none st (post :: rest)
      = ((enrichLoop fetch times none st rest).1,
         post :: (enrichLoop fetch times none st rest).2) := by
  simp only [enrichLoop]
  rw [if_neg hg]

theorem enrichLoop_const (o r : String)
    (fetch : String → String → List GitHubStar) (times : Nat → Int) :
    ∀ (posts : List HNPost) (st : EnrichState) (sd : StarData),
      st.memo.lookup (o ++ "/" ++ r) = some sd →
      (enrichLoop fetch times none st posts).1.memo.lookup (o ++ "/" ++ r) = some sd ∧
      (enrichLoop fetch times none st posts).1.fetchLog.count (o ++ "/" ++ r)
        = st.fetchLog.count (o ++ "/" ++ r) ∧
      (enrichLoop fetch times none st posts).2.length = posts.length ∧
      (∀ (i : Nat) (hi : i < posts.length),
        resolvesVia o r (posts.get ⟨i, hi⟩) →
        (enrichLoop fetch times none st posts).2.get? i
          = some (applyStarData (posts.get ⟨i, hi⟩) sd)) := by
  intro posts
  induction posts with
  | nil =>
    intro st sd hmemo
    refine ⟨hmemo, rfl, rfl, ?_⟩
    intro i hi
    exact absurd hi (by simp)
  | cons post rest ih =>
    intro st sd hmemo
    by_cases hg : isGithubPost post = true
    · rw [enrichLoop_github_cons fetch times st post rest hg]
      obtain ⟨m1, c1, o1⟩ := enrichStep_const o r fetch times st post sd hmemo
      obtain ⟨ihm, ihc, ihl, ihget⟩ := ih (enrichStep fetch times st post).1 sd m1
      refine ⟨ihm, by rw [ihc, c1], by simpa using ihl, ?_⟩
      intro i hi hres
      match i with
      | 0 =>
        show some (enrichStep fetch times st post).2 = _
        rw [o1 hres]
        rfl
      | Nat.succ k =>
        exact ihget k (by simpa using hi) hres
    · rw [enrichLoop_other_cons fetch times st post rest hg]
      obtain ⟨ihm, ihc, ihl, ihget⟩ := ih st sd hmemo
      refine ⟨ihm, ihc, by simpa using ihl, ?_⟩
      intro i hi hres
      match i with
      | 0 => exact absurd hres.1 hg
      | Nat.succ k =>
        exact ihget k (by simpa using hi) hres

theorem enrichLoop_fresh (o r : String) (ho : ∀ c ∈ o.data, c ≠ '/')
    (fetch : String → String → List GitHubStar) (times : Nat → Int)
    (hfe : fetch o r ≠ []) :
    ∀ (posts : List HNPost) (st : EnrichState),
      st.memo.lookup (o ++ "/" ++ r) = none →
      ((∀ p ∈ posts, ¬ resolvesVia o r p) →
        (enrichLoop fetch times none st posts).1.memo.lookup (o ++ "/" ++ r) = none ∧
        (enrichLoop fetch times none st posts).1.fetchLog.count (o ++ "/" ++ r)
          = st.fetchLog.count (o ++ "/" ++ r)) ∧
      ((∃ p ∈ posts, resolvesVia o r p) →
        ∃ sd,
          (enrichLoop fetch times none st posts).1.fetchLog.count (o ++ "/" ++ r)
            = st.fetchLog.count (o ++ "/" ++ r) + 1 ∧
          (enrichLoop fetch times none st posts).2.length = posts.length ∧
          (∀ (i : Nat) (hi : i < posts.length),
            resolvesVia o r (posts.get ⟨i, hi⟩) →
            (enrichLoop fetch times none st posts).2.get? i
              = some (applyStarData (posts.get ⟨i, hi⟩) sd))) := by
  intro posts
  induction posts with
  | nil =>
    intro st hmemo
    constructor
    · intro _
      exact ⟨hmemo, rfl⟩
    · intro hex
      simp at hex
  | cons post rest ih =>
    intro st hmemo
    by_cases hres : resolvesVia o r post
    · obtain ⟨m1, c1, o1⟩ := (enrichStep_fresh o r ho fetch times st post hmemo).2 hres hfe
      obtain ⟨cm, cc, cl, cget⟩ := enrichLoop_const o r fetch times rest
        (enrichStep fetch times st post).1 _ m1
      rw [enrichLoop_github_cons fetch times st post rest hres.1]
      constructor
      · intro hall
        exact absurd hres (hall post (List.mem_cons_self post rest))
      · intro _
        refine ⟨computeStarData (o ++ "/" ++ r) (fetch o r) post.posted_at
          (times st.clock), ?_, ?_, ?_⟩
        · rw [cc, c1]
        · simpa using cl
        · intro i hi hresi
          match i with
          | 0 =>
            show some (enrichStep fetch times st post).2 = _
            rw [o1]
            rfl
          | Nat.succ k =>
            exact cget k (by simpa using hi) hresi
    · by_cases hg : isGithubPost post = true
      · obtain ⟨m1, c1⟩ := (enrichStep_fresh o r ho fetch times st post hmemo).1 hres
        obtain ⟨ihno, ihyes⟩ := ih (enrichStep fetch times st post).1 m1
        rw [enrichLoop_github_cons fetch times st post rest hg]
        constructor
        · intro hall
          obtain ⟨rm, rc⟩ := ihno
            (fun p hp => hall p (List.mem_cons_of_mem post hp))
          exact ⟨rm, by rw [rc, c1]⟩
        · intro hex
          obtain ⟨p, hp, hpres⟩ := hex
          have hp' : p ∈ rest := by
            rcases List.mem_cons.mp hp with h | h
            · exact absurd (h ▸ hpres) hres
            · exact h
          obtain ⟨sd, rc, rl, rget⟩ := ihyes ⟨p, hp', hpres⟩
          refine ⟨sd, ?_, ?_, ?_⟩
          · rw [rc, c1]
          · simpa using rl
          · intro i hi hresi
            match i with
            | 0 => exact absurd hresi hres
            | Nat.succ k =>
              exact rget k (by simpa using hi) hresi
      · obtain ⟨ihno, ihyes⟩ := ih st hmemo
        rw [enrichLoop_other_cons fetch times st post rest hg]
        constructor
        · intro hall
          exact ihno (fun p hp => hall p (List.mem_cons_of_mem post hp))
        · intro hex
          obtain ⟨p, hp, hpres⟩ := hex
          have hp' : p ∈ rest := by
            rcases List.mem_cons.mp hp with h | h
            · exact absurd (h ▸ hpres) hres
            · exact h
          obtain ⟨sd, rc, rl, rget⟩ := ihyes ⟨p, hp', hpres⟩
          refine ⟨sd, rc, by simpa using rl, ?_⟩
          intro i hi hresi
          match i with
          | 0 => exact absurd hresi.1 hg
          | Nat.succ k =>
            exact rget k (by simpa using hi) hresi

/-- C2 counterexample — when the star fetch returns no events the memo is
never populated (`if not stars: continue` runs before the caching line), so
two posts linking the same repository cause two Star History Fetcher
invocations and neither post is enriched. -/
theorem C2_zero_star_repo_fetched_twice :
    (enrichWithGithubStars (fun _ _ => []) (fun _ => 0) none
        [{ rank := 0, post_id := "1", title := "t1",
           url := some "https://github.com/a/b", points := 0, author := "",
           comments_count := 0, age_text := "", page_number := 0,
           scraped_at := 0, is_github_link := true },
         { rank := 0, post_id := "2", title := "t2",
           url := some "https://github.com/a/b", points := 0, author := "",
           comments_count := 0, age_text := "", page_number := 0,
           scraped_at := 0, is_github_link := true }]).1.fetchLog.count "a/b" = 2 ∧
    extract_repo_info (some "https://github.com/a/b") = some ("a", "b") := by
  constructor
  · rfl
  · rfl

/-- C2 amended — for every post list containing posts at positions `i` and
`j` that enter the enrichment loop and whose URLs resolve to the same
repository full name, provided the Star History Fetcher returns at least
one event for that repository, an uninterrupted run invokes the fetcher
exactly once for that repository and writes identical enrichment values
(including the same capture timestamp) onto both posts. -/
theorem C2_same_repo_memoized :
    ∀ (posts : List HNPost) (fetch : String → String → List GitHubStar)
      (times : Nat → Int) (i j : Nat) (hi : i < posts.length)
      (hj : j < posts.length) (o r o2 r2 : String),
      resolvesVia o r (posts.get ⟨i, hi⟩) →
      resolvesVia o2 r2 (posts.get ⟨j, hj⟩) →
      o2 ++ "/" ++ r2 = o ++ "/" ++ r →
      fetch o r ≠ [] →
      (enrichWithGithubStars fetch times none posts).1.fetchLog.count
          (o ++ "/" ++ r) = 1 ∧
      ∃ q1 q2,
        (enrichWithGithubStars fetch times none posts).2.get? i = some q1 ∧
        (enrichWithGithubStars fetch times none posts).2.get? j = some q2 ∧
        enrichFieldsOf q1 = enrichFieldsOf q2 ∧
        q1.github_stars_fetched_at ≠ none := by
  intro posts fetch times i j hi hj o r o2 r2 hri hrj hname hfe
  have hsi := extract_repo_info_no_slash _ _ _ hri.2
  have hsj := extract_repo_info_no_slash _ _ _ hrj.2
  obtain ⟨ho2, hr2⟩ := full_name_pair_inj o2 r2 o r hsj.1 hsi.1 hname
  have hrj' : resolvesVia o r (posts.get ⟨j, hj⟩) := ⟨hrj.1, by
    rw [hrj.2, ho2, hr2]⟩
  have hrun := (enrichLoop_fresh o r hsi.1 fetch times hfe posts
    { memo := [], fetchLog := [], clock := 0 } rfl).2
    ⟨posts.get ⟨i, hi⟩, List.get_mem posts i hi, hri⟩
  obtain ⟨sd, hc, hl, hget⟩ := hrun
  refine ⟨by simpa using hc, applyStarData (posts.get ⟨i, hi⟩) sd,
    applyStarData (posts.get ⟨j, hj⟩) sd, hget i hi hri, hget j hj hrj', ?_, ?_⟩
  · rfl
  · simp [applyStarData]

/-- Witness: C2's amended theorem applied to a concrete two-post run. -/
theorem C2_same_repo_memoized_witness :
    (enrichWithGithubStars (fun _ _ => [⟨"a", "b", 3, "u"⟩]) (fun k => (k : Int)) none
        [{ rank := 0, post_id := "1", title := "t1",
           url := some "https://github.com/a/b", points := 0, author := "",
           comments_count := 0, age_text := "", page_number := 0,
           scraped_at := 0, is_github_link := true },
         { rank := 0, post_id := "2", title := "t2",
           url := some "https://github.com/a/b", points := 0, author := "",
           comments_count := 0, age_text := "", page_number := 0,
           scraped_at := 0, is_github_link := true }]).1.fetchLog.count
        ("a" ++ "/" ++ "b") = 1 ∧
    ∃ q1 q2,
      (enrichWithGithubStars (fun _ _ => [⟨"a", "b", 3, "u"⟩]) (fun k => (k : Int)) none
          [{ rank := 0, post_id := "1", title := "t1",
             url := some "https://github.com/a/b", points := 0, author := "",
             comments_count := 0, age_text := "", page_number := 0,
             scraped_at := 0, is_github_link := true },
           { rank := 0, post_id := "2", title := "t2",
             url := some "https://github.com/a/b", points := 0, author := "",
             comments_count := 0, age_text := "", page_number := 0,
             scraped_at := 0, is_github_link := true }]).2.get? 0 = some q1 ∧
      (enrichWithGithubStars (fun _ _ => [⟨"a", "b", 3, "u"⟩]) (fun k => (k : Int)) none
          [{ rank := 0, post_id := "1", title := "t1",
             url := some "https://github.com/a/b", points := 0, author := "",
             comments_count := 0, age_text := "", page_number := 0,
             scraped_at := 0, is_github_link := true },
           { rank := 0, post_id := "2", title := "t2",
             url := some "https://github.com/a/b", points := 0, author := "",
             comments_count := 0, age_text := "", page_number := 0,
             scraped_at := 0, is_github_link := true }]).2.get? 1 = some q2 ∧
      enrichFieldsOf q1 = enrichFieldsOf q2 ∧
      q1.github_stars_fetched_at ≠ none :=
  C2_same_repo_memoized _ _ _ 0 1 (by decide) (by decide) "a" "b" "a" "b"
    (by decide) (by decide) rfl (by decide)

/-- C8 counterexample — a structural post row with a parseable title but no
metadata is not always emitted: the dedicated scraper skips a titled row
with no next sibling row at all, and the aggregator client's parser skips a
titled row whose sibling lacks the subtext cell (emitting nothing in either
case, instead of a job post). -/
theorem C8_missing_meta_not_always_emitted :
    parse_page_scraper 0 1
        [{ idAttr := some "100", rankText := some "1.",
           titleline := some { linkText := some "Job at X", href := some "https://x.example" },
           nextRow := none }] = [] ∧
    parse_page_web 0 1
        [{ idAttr := some "100", rankText := some "1.",
           titleline := some { linkText := some "Job at X", href := some "https://x.example" },
           nextRow := some { subtext := none } }] = [] := by
  constructor
  · rfl
  · rfl

/-- C8 amended — in the dedicated scraper module's parse, a row with a
parseable title and rank whose next sibling row exists but lacks the
subtext cell is emitted with zero points, zero comments, empty author and
the job flag set true; a titled row with no sibling row at all is skipped;
rows with no parseable title are skipped without error by both parsers;
and the aggregator client's reimplementation skips every row lacking the
subtext cell. -/
theorem C8_job_row_handling :
    (∀ (now page : Int) (row : PostRow) (tl : TitleLine) (mr : MetaRow)
        (t : String) (rk : Int),
      row.titleline = some tl → tl.linkText = some t →
      (match row.rankText with
        | none => some 0
        | some txt => pyIntL (stripBy (fun c => c = '.') txt.data)) = some rk →
      row.nextRow = some mr → mr.subtext = none →
      ∃ p, parseRowScraper now page row = some p ∧
        p.points = 0 ∧ p.comments_count = 0 ∧ p.author = "" ∧
        p.is_job = true ∧ p.title = pyStrip t ∧ p.posted_at = none ∧
        p.rank = rk) ∧
    (∀ (now page : Int) (row : PostRow), row.nextRow = none →
      parseRowScraper now page row = none) ∧
    (∀ (now page : Int) (row : PostRow), row.titleline = none →
      parseRowScraper now page row = none ∧ parseRowWeb now page row = none) ∧
    (∀ (now page : Int) (row : PostRow) (tl : TitleLine),
      row.titleline = some tl → tl.linkText = none →
      parseRowScraper now page row = none ∧ parseRowWeb now page row = none) ∧
    (∀ (now page : Int) (row : PostRow) (mr : MetaRow),
      row.nextRow = some mr → mr.subtext = none →
      parseRowWeb now page row = none) := by
  refine ⟨?_, ?_, ?_, ?_, ?_⟩
  · intro now page row tl mr t rk htl hlink hrank hnext hsub
    simp only [parseRowScraper, hrank, htl, hlink, hnext, hsub]
    exact ⟨_, rfl, rfl, rfl, rfl, rfl, rfl, rfl, rfl⟩
  · intro now page row hnext
    simp only [parseRowScraper, hnext]
    repeat' split
    all_goals rfl
  · intro now page row htl
    constructor
    · simp only [parseRowScraper, htl]
      repeat' split
      all_goals rfl
    · simp only [parseRowWeb, htl]
      repeat' split
      all_goals rfl
  · intro now page row tl htl hlink
    constructor
    · simp only [parseRowScraper, htl, hlink]
      repeat' split
      all_goals rfl
    · simp only [parseRowWeb, htl, hlink]
      repeat' split
      all_goals rfl
  · intro now page row mr hnext hsub
    simp only [parseRowWeb, hnext, hsub]
    repeat' split
    all_goals rfl

/-- Witness: C8's amended theorem applied at concrete rows. -/
theorem C8_job_row_handling_witness :
    (∃ p, parseRowScraper 0 1
        { idAttr := some "9", rankText := some "3.",
          titleline := some { linkText := some " Startup is hiring ",
                              href := some "https://startup.example/jobs" },
          nextRow := some { subtext := none } } = some p ∧
      p.points = 0 ∧ p.comments_count = 0 ∧ p.author = "" ∧
      p.is_job = true ∧ p.title = pyStrip " Startup is hiring " ∧
      p.posted_at = none ∧ p.rank = 3) ∧
    parseRowWeb 0 1
        { idAttr := some "9", rankText := some "3.",
          titleline := some { linkText := some " Startup is hiring ",
                              href := some "https://startup.example/jobs" },
          nextRow := some { subtext := none } } = none := by
  constructor
  · exact C8_job_row_handling.1 0 1 _ _ _ " Startup is hiring " 3 rfl rfl
      (by decide) rfl rfl
  · exact C8_job_row_handling.2.2.2.2 0 1 _ _ rfl rfl

/-- On a row satisfying `rowAgrees`, the two front-page row parsers give
the same result. -/
theorem parseRowAgrees_eq (now page : Int) (row : PostRow)
    (h : rowAgrees row = true) :
    parseRowScraper now page row = parseRowWeb now page row := by
  simp only [rowAgrees, Bool.and_eq_true] at h
  obtain ⟨⟨h1, h2⟩, h3⟩ := h
  have hrank := of_decide_eq_true h1
  cases hrs : (match row.rankText with
      | none => some (0 : Int)
      | some txt => pyIntL (stripBy (fun c => c = '.') txt.data)) with
  | none =>
    have hws : (match row.rankText with
        | none => some (0 : Int)
        | some txt => pyIntL (rstripBy (fun c => c = '.') (pyStripL txt.data)))
        = none := by
      rw [← hrank]; exact hrs
    simp only [parseRowScraper, parseRowWeb, hrs, hws]
  | some rk =>
    have hws : (match row.rankText with
        | none => some (0 : Int)
        | some txt => pyIntL (rstripBy (fun c => c = '.') (pyStripL txt.data)))
        = some rk := by
      rw [← hrank]; exact hrs
    cases htitle : row.titleline with
    | none => simp only [parseRowScraper, parseRowWeb, hrs, hws, htitle]
    | some tl =>
      rw [htitle, Bool.and_eq_true] at h2
      obtain ⟨h2a, h2b⟩ := h2
      cases hlink : tl.linkText with
      | none => simp only [parseRowScraper, parseRowWeb, hrs, hws, htitle, hlink]
      | some rawTitle =>
        cases hnext : row.nextRow with
        | none =>
          simp only [parseRowScraper, parseRowWeb, hrs, hws, htitle, hlink, hnext]
        | some mr =>
          simp only [hnext] at h3
          cases hsub : mr.subtext with
          | none =>
            simp only [hsub] at h3
            exact absurd h3 Bool.false_ne_true
          | some st =>
            simp only [hsub, Bool.and_eq_true] at h3
            obtain ⟨h3a, h3b⟩ := h3
            have hlinks : mr.allLinkTexts = st.linkTexts := eq_of_beq h3a
            have hurlEq : (if !(tl.href.getD "").isEmpty &&
                  !(strStartsWith (tl.href.getD "") "http")
                then "https://news.ycombinator.com/" ++ tl.href.getD ""
                else tl.href.getD "") = tl.href.getD "" := by
              rw [Bool.or_eq_true] at h2a
              rcases h2a with h | h
              · rw [h]; simp
              · rw [h]; simp
            cases hmk : tl.mark with
            | bare s => rw [hmk] at h2b; exact absurd h2b Bool.false_ne_true
            | absent =>
              cases hsc : st.scoreText with
              | none =>
                simp only [parseRowScraper, parseRowWeb, hrs, hws, htitle, hlink,
                  hnext, hsub, hmk, hsc, hurlEq, hlinks]
              | some sc =>
                rw [hsc] at h3b
                rw [Bool.or_eq_true] at h3b
                rcases h3b with hemp | hns
                · have he : pyStrip sc = "" := (String.isEmpty_iff _).mp hemp
                  have hb : (firstToken (pyStrip sc)).bind pyInt = none := by
                    rw [he]; rfl
                  simp only [parseRowScraper, parseRowWeb, hrs, hws, htitle, hlink,
                    hnext, hsub, hmk, hsc, hurlEq, hlinks]
                  rw [if_pos hemp, hb]
                · cases ho : (firstToken (pyStrip sc)).bind pyInt with
                  | none => rw [ho] at hns; simp at hns
                  | some n =>
                    have hemp' : (pyStrip sc).isEmpty = false := by
                      cases hb' : (pyStrip sc).isEmpty with
                      | false => rfl
                      | true =>
                        rw [(String.isEmpty_iff _).mp hb'] at ho
                        rw [show (firstToken "").bind pyInt = none from rfl] at ho
                        cases ho
                    have hif : (if (pyStrip sc).isEmpty
                        then (some 0 : Option Int)
                        else (firstToken (pyStrip sc)).bind pyInt) = some n :=
                      (if_neg (fun hc => Bool.false_ne_true
                        (hemp'.symm.trans hc))).trans ho
                    simp only [parseRowScraper, parseRowWeb, hrs, hws, htitle,
                      hlink, hnext, hsub, hmk, hsc, hurlEq, hlinks]
                    rw [hif, ho]
            | inBit s =>
              cases hsc : st.scoreText with
              | none =>
                simp only [parseRowScraper, parseRowWeb, hrs, hws, htitle, hlink,
                  hnext, hsub, hmk, hsc, hurlEq, hlinks]
              | some sc =>
                rw [hsc] at h3b
                rw [Bool.or_eq_true] at h3b
                rcases h3b with hemp | hns
                · have he : pyStrip sc = "" := (String.isEmpty_iff _).mp hemp
                  have hb : (firstToken (pyStrip sc)).bind pyInt = none := by
                    rw [he]; rfl
                  simp only [parseRowScraper, parseRowWeb, hrs, hws, htitle, hlink,
                    hnext, hsub, hmk, hsc, hurlEq, hlinks]
                  rw [if_pos hemp, hb]
                · cases ho : (firstToken (pyStrip sc)).bind pyInt with
                  | none => rw [ho] at hns; simp at hns
                  | some n =>
                    have hemp' : (pyStrip sc).isEmpty = false := by
                      cases hb' : (pyStrip sc).isEmpty with
                      | false => rfl
                      | true =>
                        rw [(String.isEmpty_iff _).mp hb'] at ho
                        rw [show (firstToken "").bind pyInt = none from rfl] at ho
                        cases ho
                    have hif : (if (pyStrip sc).isEmpty
                        then (some 0 : Option Int)
                        else (firstToken (pyStrip sc)).bind pyInt) = some n :=
                      (if_neg (fun hc => Bool.false_ne_true
                        (hemp'.symm.trans hc))).trans ho
                    simp only [parseRowScraper, parseRowWeb, hrs, hws, htitle,
                      hlink, hnext, hsub, hmk, hsc, hurlEq, hlinks]
                    rw [hif, ho]

/-- Counterexample to C9: the two page parsers disagree on concrete rows.
A titled row whose sibling lacks a `td.subtext` is emitted (as a job) by
`HackerNewsScraper.parse_page` but skipped by `HNWebScraper.parse_page`; a
relative href is qualified only by the former; a bare `span.sitestr` yields
a domain only in the latter; an unparseable score text aborts the row only
in the former; and a rank cell of `"1.\n"` parses only in the latter. -/
theorem C9_parsers_disagree :
    parse_page_scraper 7 1
        [{ idAttr := some "1", rankText := some "1.",
           titleline := some { linkText := some "Hiring",
                               href := some "https://j.example/a" },
           nextRow := some { subtext := none } }] ≠
      parse_page_web 7 1
        [{ idAttr := some "1", rankText := some "1.",
           titleline := some { linkText := some "Hiring",
                               href := some "https://j.example/a" },
           nextRow := some { subtext := none } }] ∧
    parse_page_scraper 7 1
        [{ idAttr := some "2", rankText := none,
           titleline := some { linkText := some "T", href := some "item?id=5" },
           nextRow := some { subtext := some {} } }] ≠
      parse_page_web 7 1
        [{ idAttr := some "2", rankText := none,
           titleline := some { linkText := some "T", href := some "item?id=5" },
           nextRow := some { subtext := some {} } }] ∧
    parse_page_scraper 7 1
        [{ idAttr := some "3", rankText := none,
           titleline := some { linkText := some "T",
                               href := some "https://e.example",
                               mark := SiteMark.bare "e.example" },
           nextRow := some { subtext := some {} } }] ≠
      parse_page_web 7 1
        [{ idAttr := some "3", rankText := none,
           titleline := some { linkText := some "T",
                               href := some "https://e.example",
                               mark := SiteMark.bare "e.example" },
           nextRow := some { subtext := some {} } }] ∧
    parse_page_scraper 7 1
        [{ idAttr := some "4", rankText := none,
           titleline := some { linkText := some "T",
                               href := some "https://e.example" },
           nextRow := some { subtext := some { scoreText := some "points" } } }] ≠
      parse_page_web 7 1
        [{ idAttr := some "4", rankText := none,
           titleline := some { linkText := some "T",
                               href := some "https://e.example" },
           nextRow := some { subtext := some { scoreText := some "points" } } }] ∧
    parse_page_scraper 7 1
        [{ idAttr := some "5", rankText := some "1.\n",
           titleline := some { linkText := some "T",
                               href := some "https://e.example" },
           nextRow := some { subtext := some {} } }] ≠
      parse_page_web 7 1
        [{ idAttr := some "5", rankText := some "1.\n",
           titleline := some { linkText := some "T",
                               href := some "https://e.example" },
           nextRow := some { subtext := some {} } }] := by
  refine ⟨?_, ?_, ?_, ?_, ?_⟩ <;> decide

/-- C9 (amended): the duplicated front-page parse logic agrees on every
page whose rows satisfy `rowAgrees` - the two rank pipelines produce the
same value, each href is empty or absolute, no site marker is a bare
`span.sitestr`, every titled row's sibling has a `td.subtext` whose link
texts are exactly the sibling row's link texts, and every score text is
blank or starts with a parseable integer.  On such pages the aggregator
client's parser (`HNWebScraper.parse_page`, src/hackernews.py 497-628) and
the dedicated scraper module's parser (`HackerNewsScraper.parse_page`,
src/scraper.py 104-259) produce the same list of Post Records; outside
these conditions they diverge. -/
theorem C9_parser_equivalence (now page : Int) (rows : List PostRow)
    (h : ∀ row ∈ rows, rowAgrees row = true) :
    parse_page_scraper now page rows = parse_page_web now page rows := by
  induction rows with
  | nil => rfl
  | cons row rest ih =>
    have hrow := parseRowAgrees_eq now page row (h row (List.mem_cons_self row rest))
    have hrest := ih (fun q hq => h q (List.mem_cons_of_mem row hq))
    simp only [parse_page_scraper, parse_page_web] at hrest ⊢
    rw [List.filterMap_cons, List.filterMap_cons, hrow, hrest]

/-- Witness: C9's amended theorem applied to a concrete well-formed page. -/
theorem C9_parser_equivalence_witness :
    parse_page_scraper 7 1
        [{ idAttr := some "11", rankText := some "2.",
           titleline := some { linkText := some " A tool ",
                               href := some "https://a.example/b",
                               mark := SiteMark.inBit " a.example " },
           nextRow := some { subtext := some { scoreText := some "5 points",
                                               authorText := some "u",
                                               ageLink := some (some "3 hours ago"),
                                               linkTexts := ["u", "3 hours ago",
                                                             "7 comments"] },
                             allLinkTexts := ["u", "3 hours ago",
                                              "7 comments"] } }] =
      parse_page_web 7 1
        [{ idAttr := some "11", rankText := some "2.",
           titleline := some { linkText := some " A tool ",
                               href := some "https://a.example/b",
                               mark := SiteMark.inBit " a.example " },
           nextRow := some { subtext := some { scoreText := some "5 points",
                                               authorText := some "u",
                                               ageLink := some (some "3 hours ago"),
                                               linkTexts := ["u", "3 hours ago",
                                                             "7 comments"] },
                             allLinkTexts := ["u", "3 hours ago",
                                              "7 comments"] } }] :=
  C9_parser_equivalence 7 1 _ (by decide)
